import Mathlib

/-!
# go_tropipay: resource operations over the authenticated request pipeline

A shallow embedding of the resource layer of the `gotropipay` client
(`users.go`, `accounts.go`, `deposit_accounts.go`, `movements.go`).

Conventions of the embedding.

* Go `int` and `int64` are `Int`; no arithmetic is done on them by the embedded
  code, they are only compared with `0` and rendered in decimal.
* A Go field named `Type` is `Type_` (`Type` is reserved in Lean).
* Go `string` is `String`; the standard-library functions that look at bytes
  (`url.QueryEscape`, `json.Marshal`) work on the UTF-8 bytes of the string.
* A Go pointer result `*T` is `Option T`, a Go `error` is `Option GoError`.
* The `context.Context` argument is only handed on to `Request`; it is left out.
* `Client.Request` is declared in `client.go`, which is not among the sources.
  The resource operations are embedded over an arbitrary behaviour of it
  (`Client.pipeline`), and every request they issue is recorded in `Client.trace`.
-/

namespace Gotropipay

/-! ## Data model (users.go, movements.go, accounts.go, deposit_accounts.go) -/

/-- MovementFilter of movements.go: the filter criteria for listing movements. -/
structure MovementFilter where
  State : List String
  Currency : String
  AmountGte : Int
  AmountLte : Int
  CreatedAtFrom : String
  CreatedAtTo : String
  Reference : String
  AccountID : String
  deriving Inhabited, DecidableEq

/-- Dynamic Go values, as held by an `interface{}` in this repository: what
`encoding/json` decodes into an `interface{}` (nil, bool, number, string, slice,
map), and the two kinds of value `SearchMovements` stores in its variables map. -/
inductive GoValue where
  | nil
  | bool (b : Bool)
  | number (literal : String)
  | string (s : String)
  | slice (xs : List GoValue)
  | map (kvs : List (String × GoValue))
  | filterPtr (f : Option MovementFilter)
  | mapStringInt (kvs : List (String × Int))
  deriving Inhabited

/-- User of users.go. -/
structure User where
  ID : String
  Name : String
  Surname : String
  Email : String
  Phone : String
  State : Int
  KycLevel : Int
  Balance : Int
  PendingIn : Int
  PendingOut : Int
  TwoFaMode : Int
  Logo : String
  CreatedAt : String
  UpdatedAt : String
  Group : List (String × GoValue)
  UserDetail : List (String × GoValue)
  Options : List (String × GoValue)
  deriving Inhabited

/-- SendSecurityCodeRequest of users.go. -/
structure SendSecurityCodeRequest where
  Type_ : String
  CallingCode : String
  Phone : String
  Email : String
  deriving Inhabited, DecidableEq

/-- ValidateSecurityTokenRequest of users.go. -/
structure ValidateSecurityTokenRequest where
  SecurityCode : String
  Type_ : String
  deriving Inhabited, DecidableEq

/-- ValidateSecurityTokenResponse of users.go. -/
structure ValidateSecurityTokenResponse where
  IsValid : Bool
  User : User
  Token : String
  deriving Inhabited

/-- Configure2FARequest of users.go. -/
structure Configure2FARequest where
  Enabled : Bool
  Type_ : String
  SecurityCode : String
  deriving Inhabited, DecidableEq

/-- Get2FASecretResponse of users.go. -/
structure Get2FASecretResponse where
  Secret : String
  QRCodeURL : String
  deriving Inhabited, DecidableEq

/-- ChangePasswordRequest of users.go. -/
structure ChangePasswordRequest where
  OldPass : String
  NewPass : String
  deriving Inhabited, DecidableEq

/-- DisableUserResponse of users.go. -/
structure DisableUserResponse where
  Success : Bool
  Message : String
  deriving Inhabited, DecidableEq

/-- Movement of movements.go. -/
structure Movement where
  ID : GoValue
  Amount : Int
  Currency : String
  State : String
  Reference : String
  CreatedAt : String
  CompletedAt : String
  BalanceBefore : Int
  BalanceAfter : Int
  Recipient : Option User
  Sender : Option User
  Account : GoValue
  deriving Inhabited

/-- ListMovementsResponse of movements.go. -/
structure ListMovementsResponse where
  Items : List Movement
  TotalCount : Int
  HasMore : Bool
  deriving Inhabited

/-- The graphQLRequest of movements.go: a query text and a variables map. -/
structure graphQLRequest where
  Query : String
  Variables : List (String × GoValue)
  deriving Inhabited

/-- One entry of the `Errors` slice of the anonymous GraphQL response wrapper. -/
structure GqlError where
  Message : String
  deriving Inhabited, DecidableEq

/-- The `Data` member of the anonymous GraphQL response wrapper. -/
structure GqlData where
  Movements : ListMovementsResponse
  deriving Inhabited

/-- The anonymous struct `gqlResp` that `SearchMovements` decodes into. -/
structure GqlResp where
  Data : GqlData
  Errors : List GqlError
  deriving Inhabited

/-- AddTropicardAccountRequest of accounts.go. -/
structure AddTropicardAccountRequest where
  TropicardNumber : String
  Pin : String
  deriving Inhabited, DecidableEq

/-- CryptoAddress of accounts.go. -/
structure CryptoAddress where
  Address : String
  Network : String
  Currency : String
  deriving Inhabited, DecidableEq

/-- GetCryptoAddressResponse of accounts.go. -/
structure GetCryptoAddressResponse where
  FeePercent : Int
  FeeFixed : Int
  Accounts : List CryptoAddress
  deriving Inhabited, DecidableEq

/-- CountryDestination of deposit_accounts.go. -/
structure CountryDestination where
  ID : Int
  Name : String
  SepaZone : Bool
  Slug : String
  CallingCode : Int
  deriving Inhabited, DecidableEq

/-- AllowedAccount of deposit_accounts.go. -/
structure AllowedAccount where
  ID : Int
  Alias : String
  Currency : String
  Type_ : Int
  deriving Inhabited, DecidableEq

/-- DepositAccount of deposit_accounts.go: a beneficiary. -/
structure DepositAccount where
  ID : Int
  AccountNumber : String
  FirstName : String
  LastName : String
  Alias : String
  Swift : String
  Type_ : Int
  PersonType : Int
  State : GoValue
  CountryDestinationID : Int
  DocumentNumber : String
  Address : String
  Phone : String
  Email : String
  CreatedAt : String
  UpdatedAt : String
  CountryDestination : Option CountryDestination
  PaymentMethods : List String
  AllowedAccounts : List AllowedAccount
  Allowed : Bool
  deriving Inhabited

/-- CreateDepositAccountRequest of deposit_accounts.go. -/
structure CreateDepositAccountRequest where
  AccountNumber : String
  FirstName : String
  LastName : String
  CountryDestinationID : Int
  Type_ : Int
  Alias : String
  Email : String
  Phone : String
  Address : String
  Swift : String
  deriving Inhabited, DecidableEq

/-- UpdateDepositAccountRequest of deposit_accounts.go. -/
structure UpdateDepositAccountRequest where
  ID : Int
  Alias : String
  deriving Inhabited, DecidableEq

/-- DeleteDepositAccountRequest of deposit_accounts.go. -/
structure DeleteDepositAccountRequest where
  SecurityCode : String
  deriving Inhabited, DecidableEq

/-- ValidateAccountNumberRequest of deposit_accounts.go. -/
structure ValidateAccountNumberRequest where
  AccountNumber : String
  CountryDestinationID : Int
  Type_ : Int
  Currency : String
  PaymentType : Int
  deriving Inhabited, DecidableEq

/-- ValidateAccountNumberResponse of deposit_accounts.go. -/
structure ValidateAccountNumberResponse where
  Valid : Bool
  Type_ : GoValue
  ErrorCode : GoValue
  ErrorMessage : GoValue
  deriving Inhabited

/-- The listDepositAccountsResponse of deposit_accounts.go. The slice `Items` is
`none` when it is nil (its zero value, and what a response without items decodes
to) and `some` of its elements otherwise. -/
structure listDepositAccountsResponse where
  Items : Option (List DepositAccount)
  deriving Inhabited

/-! ## Errors -/

/-- Modelled from the spec: client.go, which declares the error types of the
pipeline, is not among the sources. The first five constructors are the error
taxonomy of the specification (section 7) with the fields of `APIError` from
section 3 (`httpStatus`, optional `code`, `message`, `rawBody`). The last two are
the values built by `fmt.Errorf` in the resource files: `errorString` for a format
without `%w` (its text is the whole message), `wrapError` for a format with `%w`
(the text before the wrapped error, and the wrapped error). -/
inductive GoError where
  | NetworkError (message : String)
  | AuthError (message : String)
  | APIError (httpStatus : Int) (code : Option String) (message : String) (rawBody : String)
  | DecodeError (rawBody : String) (message : String)
  | CancellationError
  | errorString (s : String)
  | wrapError (text : String) (err : GoError)
  deriving Inhabited, DecidableEq

/-- Whether an error is an `APIError` (of any status, code, message and body). -/
def GoError.isAPIError : GoError → Bool
  | .APIError _ _ _ _ => true
  | _ => false

/-- The `fmt.Errorf` call of `SearchMovements`: `fmt.Errorf("graphql error: %s", m)`. -/
def graphqlErrorf (m : String) : GoError :=
  .errorString ("graphql error: " ++ m)

/-! ## Requests -/

/-- The values the resource operations pass as `body` to `Request`. -/
inductive Body where
  | nil
  | SendSecurityCodeRequest (r : SendSecurityCodeRequest)
  | ValidateSecurityTokenRequest (r : ValidateSecurityTokenRequest)
  | Configure2FARequest (r : Configure2FARequest)
  | ChangePasswordRequest (r : ChangePasswordRequest)
  | AddTropicardAccountRequest (r : AddTropicardAccountRequest)
  | CreateDepositAccountRequest (r : CreateDepositAccountRequest)
  | UpdateDepositAccountRequest (r : UpdateDepositAccountRequest)
  | DeleteDepositAccountRequest (r : DeleteDepositAccountRequest)
  | ValidateAccountNumberRequest (r : ValidateAccountNumberRequest)
  | graphQLRequest (r : graphQLRequest)
  deriving Inhabited

/-- The kinds of output target the resource operations pass as `out` to `Request`:
`nil`, or a pointer to a variable of one of the response types. -/
inductive Target where
  | nil
  | User
  | ValidateSecurityTokenResponse
  | Get2FASecretResponse
  | DisableUserResponse
  | mapStringAny
  | GetCryptoAddressResponse
  | DepositAccount
  | listDepositAccountsResponse
  | ValidateAccountNumberResponse
  | ListMovementsResponse
  | gqlResp
  deriving Inhabited, DecidableEq

/-- The type of the variable an output target points to (`Unit` for `nil`). -/
abbrev Target.Val : Target → Type
  | .nil => Unit
  | .User => Gotropipay.User
  | .ValidateSecurityTokenResponse => Gotropipay.ValidateSecurityTokenResponse
  | .Get2FASecretResponse => Gotropipay.Get2FASecretResponse
  | .DisableUserResponse => Gotropipay.DisableUserResponse
  | .mapStringAny => Option (List (String × GoValue))
  | .GetCryptoAddressResponse => Gotropipay.GetCryptoAddressResponse
  | .DepositAccount => Gotropipay.DepositAccount
  | .listDepositAccountsResponse => Gotropipay.listDepositAccountsResponse
  | .ValidateAccountNumberResponse => Gotropipay.ValidateAccountNumberResponse
  | .ListMovementsResponse => Gotropipay.ListMovementsResponse
  | .gqlResp => GqlResp

/-- One invocation of `Request`: method, path, body and the kind of output target. -/
structure Call where
  method : String
  path : String
  body : Body
  out : Target
  deriving Inhabited

/-- The client, as the resource operations see it. `client.go` is not among the
sources, so the behaviour of `Request` is a parameter: `pipeline` gives, for the
history of this client, the present request and the present content of the output
variable, the error `Request` returns and the content it leaves in the output
variable. `trace` is that history: every request issued through this client with
the error `Request` returned for it, oldest first. -/
structure Client where
  pipeline : List (Call × Option GoError) → (call : Call) → call.out.Val →
    Option GoError × call.out.Val
  trace : List (Call × Option GoError)

/-- The method `Request(ctx, method, path, body, out)` of the client: it answers
as `pipeline` says and records the call with the error returned. -/
def Client.Request (c : Client) (method path : String) (body : Body) (t : Target)
    (out : t.Val) : (Option GoError × t.Val) × Client :=
  let call : Call := ⟨method, path, body, t⟩
  let r := c.pipeline c.trace call out
  (r, ⟨c.pipeline, c.trace ++ [(call, r.1)]⟩)

/-! ## users.go -/

/-- GetUserProfile retrieves the details of the authenticated user. -/
def Client.GetUserProfile (c : Client) : (Option User × Option GoError) × Client :=
  let user : User := default
  let r := c.Request "GET" "/users/profile" Body.nil Target.User user
  match r.1.1 with
  | some err => ((none, some err), r.2)
  | none => ((some r.1.2, none), r.2)

/-- SendSecurityCode sends a security code to the user's phone or email. -/
def Client.SendSecurityCode (c : Client) (req : SendSecurityCodeRequest) :
    Option GoError × Client :=
  let r := c.Request "POST" "/users/sendSecurityCode" (Body.SendSecurityCodeRequest req)
    Target.nil ()
  (r.1.1, r.2)

/-- ValidateSecurityToken validates a security code sent to the user. -/
def Client.ValidateSecurityToken (c : Client) (req : ValidateSecurityTokenRequest) :
    (Option ValidateSecurityTokenResponse × Option GoError) × Client :=
  let resp : ValidateSecurityTokenResponse := default
  let r := c.Request "POST" "/users/validateToken" (Body.ValidateSecurityTokenRequest req)
    Target.ValidateSecurityTokenResponse resp
  match r.1.1 with
  | some err => ((none, some err), r.2)
  | none => ((some r.1.2, none), r.2)

/-- Configure2FA enables or disables two-factor authentication. -/
def Client.Configure2FA (c : Client) (req : Configure2FARequest) : Option GoError × Client :=
  let r := c.Request "POST" "/users/2fa" (Body.Configure2FARequest req) Target.nil ()
  (r.1.1, r.2)

/-- Get2FASecret generates a new TOTP secret for setting up 2FA. -/
def Client.Get2FASecret (c : Client) : (Option Get2FASecretResponse × Option GoError) × Client :=
  let resp : Get2FASecretResponse := default
  let r := c.Request "POST" "/users/2fa/secret" Body.nil Target.Get2FASecretResponse resp
  match r.1.1 with
  | some err => ((none, some err), r.2)
  | none => ((some r.1.2, none), r.2)

/-- ChangePassword changes the user's account password. -/
def Client.ChangePassword (c : Client) (req : ChangePasswordRequest) : Option GoError × Client :=
  let r := c.Request "POST" "/users/pass" (Body.ChangePasswordRequest req) Target.nil ()
  (r.1.1, r.2)

/-- DisableUserAccount disables the user account. -/
def Client.DisableUserAccount (c : Client) :
    (Option DisableUserResponse × Option GoError) × Client :=
  let resp : DisableUserResponse := default
  let r := c.Request "POST" "/users/disable" Body.nil Target.DisableUserResponse resp
  match r.1.1 with
  | some err => ((none, some err), r.2)
  | none => ((some r.1.2, none), r.2)

/-! ## accounts.go -/

/-- AddTropicardAccount links a Tropicard to the user's account. -/
def Client.AddTropicardAccount (c : Client) (req : AddTropicardAccountRequest) :
    (Option (List (String × GoValue)) × Option GoError) × Client :=
  let resp : Option (List (String × GoValue)) := none
  let r := c.Request "POST" "/accounts/" (Body.AddTropicardAccountRequest req)
    Target.mapStringAny resp
  match r.1.1 with
  | some err => ((none, some err), r.2)
  | none => ((r.1.2, none), r.2)

/-- GetCryptoAddressForSelfCharge retrieves cryptocurrency addresses for depositing
funds into a specific account. -/
def Client.GetCryptoAddressForSelfCharge (c : Client) (accountID : String) :
    (Option GetCryptoAddressResponse × Option GoError) × Client :=
  let resp : GetCryptoAddressResponse := default
  let path := "/accounts/" ++ accountID ++ "/selfcharge/crypto"
  let r := c.Request "GET" path Body.nil Target.GetCryptoAddressResponse resp
  match r.1.1 with
  | some err => ((none, some err), r.2)
  | none => ((some r.1.2, none), r.2)

/-! ## Standard-library functions used by the resource files

`strconv.Itoa`, `fmt.Sprintf("%d")`, `url.QueryEscape`, `url.Values` and
`json.Marshal` belong to the Go standard library. They are embedded from their
documented behaviour (Go 1.22 and later for the short escapes of `json.Marshal`). -/

/-- The function `strconv.Itoa`, which is also what `fmt.Sprintf` prints for `%d`:
the decimal rendering of an integer, with a leading `-` when it is negative. -/
def Itoa (i : Int) : String :=
  match i with
  | Int.ofNat n => ⟨Nat.toDigits 10 n⟩
  | Int.negSucc n => ⟨'-' :: Nat.toDigits 10 (n + 1)⟩

/-- The table `upperhex` of net/url. -/
def upperhex (n : Nat) : Char :=
  ['0', '1', '2', '3', '4', '5', '6', '7', '8', '9', 'A', 'B', 'C', 'D', 'E', 'F'].getD n '0'

/-- The function `shouldEscape(c, encodeQueryComponent)` of net/url on a byte:
letters, digits and `-`, `_`, `.`, `~` are kept, every other byte is escaped. -/
def shouldEscape (b : Nat) : Bool :=
  if (97 ≤ b ∧ b ≤ 122) ∨ (65 ≤ b ∧ b ≤ 90) ∨ (48 ≤ b ∧ b ≤ 57) then false
  else if b = 45 ∨ b = 95 ∨ b = 46 ∨ b = 126 then false
  else true

/-- What `url.QueryEscape` writes for one byte: `+` for a space, `%XX` for a byte
that must be escaped, the byte itself otherwise. -/
def escapeByte (b : Nat) : List Char :=
  if b = 32 then ['+']
  else if shouldEscape b then ['%', upperhex (b / 16), upperhex (b % 16)]
  else [Char.ofNat b]

/-- The UTF-8 bytes of a string. -/
def utf8Bytes (s : String) : List Nat :=
  (s.data.flatMap String.utf8EncodeChar).map UInt8.toNat

/-- The function `url.QueryEscape`. -/
def QueryEscape (s : String) : String :=
  ⟨(utf8Bytes s).flatMap escapeByte⟩

/-- The type `url.Values`: the keys with their values, in order of first insertion. -/
abbrev Values := List (String × List String)

/-- The method `Values.Add`: appends the value to the values of the key. -/
def Values.Add : Values → String → String → Values
  | [], key, value => [(key, [value])]
  | (k, vs) :: rest, key, value =>
    if k = key then (k, vs ++ [value]) :: rest else (k, vs) :: Values.Add rest key value

/-- The `key=value` pairs that `Values.Encode` writes, in the order it writes them:
keys in increasing order (strings compared character by character, as Go compares
them byte by byte), the values of a key in insertion order. -/
def Values.pairs (v : Values) : List String :=
  (v.insertionSort (fun a b => a.1.data ≤ b.1.data)).flatMap
    (fun kv => kv.2.map (fun value => QueryEscape kv.1 ++ "=" ++ QueryEscape value))

/-- The method `Values.Encode`: the pairs joined by `&`. -/
def Values.Encode (v : Values) : String :=
  "&".intercalate v.pairs

/-- The hexadecimal digits of encoding/json (lower case). -/
def jsonHex (n : Nat) : Char :=
  ['0', '1', '2', '3', '4', '5', '6', '7', '8', '9', 'a', 'b', 'c', 'd', 'e', 'f'].getD n '0'

/-- What encoding/json writes for one character of a string, with HTML escaping on
(the default of `json.Marshal`). -/
def jsonEscapeChar (c : Char) : List Char :=
  let n := c.toNat
  if n = 92 ∨ n = 34 then [Char.ofNat 92, c]
  else if n = 8 then [Char.ofNat 92, 'b']
  else if n = 12 then [Char.ofNat 92, 'f']
  else if n = 10 then [Char.ofNat 92, 'n']
  else if n = 13 then [Char.ofNat 92, 'r']
  else if n = 9 then [Char.ofNat 92, 't']
  else if n < 32 ∨ n = 60 ∨ n = 62 ∨ n = 38 then
    [Char.ofNat 92, 'u', '0', '0', jsonHex (n / 16), jsonHex (n % 16)]
  else if n = 8232 ∨ n = 8233 then
    [Char.ofNat 92, 'u', '2', '0', '2', jsonHex (n % 16)]
  else [c]

/-- The JSON encoding of a Go string: quoted, with the escapes of encoding/json. -/
def jsonString (s : String) : String :=
  ⟨Char.ofNat 34 :: (s.data.flatMap jsonEscapeChar ++ [Char.ofNat 34])⟩

/-- The JSON encoding of a `[]string`. -/
def jsonStringArray (xs : List String) : String :=
  "[" ++ ",".intercalate (xs.map jsonString) ++ "]"

/-- The JSON encoding of an object from its members (key, encoded value). -/
def jsonObject (members : List (String × String)) : String :=
  "\x7b" ++ ",".intercalate (members.map (fun kv => jsonString kv.1 ++ ":" ++ kv.2)) ++ "\x7d"

/-- The members `json.Marshal` writes for a `MovementFilter`, from its struct tags:
every field is `omitempty`, so a field is written only when it is not the zero
value (a slice of length 0, the empty string, the integer 0). -/
def MovementFilter.members (f : MovementFilter) : List (String × String) :=
  (if f.State.length = 0 then [] else [("state", jsonStringArray f.State)]) ++
  (if f.Currency = "" then [] else [("currency", jsonString f.Currency)]) ++
  (if f.AmountGte = 0 then [] else [("amountGte", Itoa f.AmountGte)]) ++
  (if f.AmountLte = 0 then [] else [("amountLte", Itoa f.AmountLte)]) ++
  (if f.CreatedAtFrom = "" then [] else [("createdAtFrom", jsonString f.CreatedAtFrom)]) ++
  (if f.CreatedAtTo = "" then [] else [("createdAtTo", jsonString f.CreatedAtTo)]) ++
  (if f.Reference = "" then [] else [("reference", jsonString f.Reference)]) ++
  (if f.AccountID = "" then [] else [("accountId", jsonString f.AccountID)])

/-- The call `json.Marshal(filter)` for a non-nil `*MovementFilter`: the bytes and
the error. A struct of strings, integers and string slices always marshals. -/
def jsonMarshal (f : MovementFilter) : String × Option GoError :=
  (jsonObject f.members, none)

/-! ## deposit_accounts.go -/

/-- CreateDepositAccount creates a new beneficiary record. -/
def Client.CreateDepositAccount (c : Client) (req : CreateDepositAccountRequest) :
    (Option DepositAccount × Option GoError) × Client :=
  let resp : DepositAccount := default
  let r := c.Request "POST" "/depositaccounts/" (Body.CreateDepositAccountRequest req)
    Target.DepositAccount resp
  match r.1.1 with
  | some err => ((none, some err), r.2)
  | none => ((some r.1.2, none), r.2)

/-- The part of `ListDepositAccounts` that builds the query parameters: `limit` and
`offset` when positive, `search` when not empty. -/
def listDepositParams (limit offset : Int) (search : String) : Values :=
  let params : Values := []
  let params := if limit > 0 then params.Add "limit" (Itoa limit) else params
  let params := if offset > 0 then params.Add "offset" (Itoa offset) else params
  let params := if search ≠ "" then params.Add "search" search else params
  params

/-- ListDepositAccounts retrieves a list of beneficiaries. The result is the slice
`resp.Items` as decoded: `none` when that slice is nil. -/
def Client.ListDepositAccounts (c : Client) (limit offset : Int) (search : String) :
    (Option (List DepositAccount) × Option GoError) × Client :=
  let params := listDepositParams limit offset search
  let path := "/depositaccounts/"
  let path := if params.length > 0 then path ++ "?" ++ params.Encode else path
  let resp : listDepositAccountsResponse := default
  let r := c.Request "GET" path Body.nil Target.listDepositAccountsResponse resp
  match r.1.1 with
  | some err => ((none, some err), r.2)
  | none => ((r.1.2.Items, none), r.2)

/-- GetDepositAccount retrieves details of a single beneficiary. -/
def Client.GetDepositAccount (c : Client) (id : Int) :
    (Option DepositAccount × Option GoError) × Client :=
  let resp : DepositAccount := default
  let path := "/depositaccounts/" ++ Itoa id
  let r := c.Request "GET" path Body.nil Target.DepositAccount resp
  match r.1.1 with
  | some err => ((none, some err), r.2)
  | none => ((some r.1.2, none), r.2)

/-- UpdateDepositAccount updates a beneficiary alias. -/
def Client.UpdateDepositAccount (c : Client) (req : UpdateDepositAccountRequest) :
    (Option DepositAccount × Option GoError) × Client :=
  let resp : DepositAccount := default
  let r := c.Request "PUT" "/depositaccounts/" (Body.UpdateDepositAccountRequest req)
    Target.DepositAccount resp
  match r.1.1 with
  | some err => ((none, some err), r.2)
  | none => ((some r.1.2, none), r.2)

/-- DeleteDepositAccount deletes a beneficiary. -/
def Client.DeleteDepositAccount (c : Client) (id : Int) (securityCode : String) :
    Option GoError × Client :=
  let path := "/depositaccounts/" ++ Itoa id
  let req : DeleteDepositAccountRequest := ⟨securityCode⟩
  let r := c.Request "DELETE" path (Body.DeleteDepositAccountRequest req) Target.nil ()
  (r.1.1, r.2)

/-- ValidateAccountNumber checks account format and existence. -/
def Client.ValidateAccountNumber (c : Client) (req : ValidateAccountNumberRequest) :
    (Option ValidateAccountNumberResponse × Option GoError) × Client :=
  let resp : ValidateAccountNumberResponse := default
  let r := c.Request "POST" "/depositaccounts/validateaccountnumber"
    (Body.ValidateAccountNumberRequest req) Target.ValidateAccountNumberResponse resp
  match r.1.1 with
  | some err => ((none, some err), r.2)
  | none => ((some r.1.2, none), r.2)

/-! ## movements.go -/

/-- The part of `listMovementsCommon` that builds the query parameters: `limit` and
`offset` when positive, `query` (the marshalled filter) when the filter is not nil;
the error of the early return when marshalling fails. -/
def listMovementsParams (limit offset : Int) (filter : Option MovementFilter) :
    Except GoError Values :=
  let params : Values := []
  let params := if limit > 0 then params.Add "limit" (Itoa limit) else params
  let params := if offset > 0 then params.Add "offset" (Itoa offset) else params
  match filter with
  | none => .ok params
  | some f =>
    match jsonMarshal f with
    | (_, some err) => .error (.wrapError "failed to marshal filter: " err)
    | (filterJSON, none) => .ok (params.Add "query" filterJSON)

/-- The listMovementsCommon of movements.go. -/
def Client.listMovementsCommon (c : Client) (path : String) (limit offset : Int)
    (filter : Option MovementFilter) :
    (Option ListMovementsResponse × Option GoError) × Client :=
  match listMovementsParams limit offset filter with
  | .error err => ((none, some err), c)
  | .ok params =>
    let path := if params.length > 0 then path ++ "?" ++ params.Encode else path
    let resp : ListMovementsResponse := default
    let r := c.Request "GET" path Body.nil Target.ListMovementsResponse resp
    match r.1.1 with
    | some err => ((none, some err), r.2)
    | none => ((some r.1.2, none), r.2)

/-- ListMovements retrieves a list of movements for the authenticated user. -/
def Client.ListMovements (c : Client) (limit offset : Int) (filter : Option MovementFilter) :
    (Option ListMovementsResponse × Option GoError) × Client :=
  c.listMovementsCommon "/movements/" limit offset filter

/-- ListAccountMovements retrieves movements for a specific account. -/
def Client.ListAccountMovements (c : Client) (accountID : String) (limit offset : Int)
    (filter : Option MovementFilter) :
    (Option ListMovementsResponse × Option GoError) × Client :=
  let path := "/accounts/" ++ accountID ++ "/movements"
  c.listMovementsCommon path limit offset filter

/-- The GraphQL query text of `SearchMovements`. -/
def searchMovementsQuery : String :=
  "query GetMovements($filter: MovementFilter, $pagination: Pagination) \x7b \n\t\tmovements(filter: $filter, pagination: $pagination) \x7b \n\t\t\titems \x7b \n\t\t\t\tid \n\t\t\t\tamount \n\t\t\t\tstate \n\t\t\t\tcurrency \n\t\t\t\tcreatedAt \n\t\t\t\tcompletedAt \n\t\t\t\tbalanceBefore \n\t\t\t\tbalanceAfter \n\t\t\t\treference \n\t\t\t\trecipient \x7b \n\t\t\t\t\tname \n\t\t\t\t\temail \n\t\t\t\t\x7d \n\t\t\t\tsender \x7b \n\t\t\t\t\tname \n\t\t\t\t\temail \n\t\t\t\t\x7d \n\t\t\t\x7d \n\t\t\ttotalCount \n\t\t\x7d \n\t\x7d"

/-- SearchMovements performs an advanced search using the GraphQL endpoint. -/
def Client.SearchMovements (c : Client) (filter : Option MovementFilter) (limit offset : Int) :
    (Option ListMovementsResponse × Option GoError) × Client :=
  let query := searchMovementsQuery
  let vars : List (String × GoValue) :=
    [("filter", GoValue.filterPtr filter),
     ("pagination", GoValue.mapStringInt [("limit", limit), ("offset", offset)])]
  let req : graphQLRequest := ⟨query, vars⟩
  let gqlResp : GqlResp := default
  let r := c.Request "POST" "/movements/business" (Body.graphQLRequest req) Target.gqlResp gqlResp
  match r.1.1 with
  | some err => ((none, some err), r.2)
  | none =>
    let gqlResp := r.1.2
    match gqlResp.Errors with
    | e0 :: _ => ((none, some (graphqlErrorf e0.Message)), r.2)
    | [] => ((some gqlResp.Data.Movements, none), r.2)

/-! ## The resource operations as one family -/

/-- A call of one of the resource operations of the four files, with its arguments. -/
inductive Op where
  | GetUserProfile
  | SendSecurityCode (req : SendSecurityCodeRequest)
  | ValidateSecurityToken (req : ValidateSecurityTokenRequest)
  | Configure2FA (req : Configure2FARequest)
  | Get2FASecret
  | ChangePassword (req : ChangePasswordRequest)
  | DisableUserAccount
  | AddTropicardAccount (req : AddTropicardAccountRequest)
  | GetCryptoAddressForSelfCharge (accountID : String)
  | CreateDepositAccount (req : CreateDepositAccountRequest)
  | ListDepositAccounts (limit offset : Int) (search : String)
  | GetDepositAccount (id : Int)
  | UpdateDepositAccount (req : UpdateDepositAccountRequest)
  | DeleteDepositAccount (id : Int) (securityCode : String)
  | ValidateAccountNumber (req : ValidateAccountNumberRequest)
  | ListMovements (limit offset : Int) (filter : Option MovementFilter)
  | ListAccountMovements (accountID : String) (limit offset : Int)
      (filter : Option MovementFilter)
  | SearchMovements (filter : Option MovementFilter) (limit offset : Int)

/-- Whether the operation has the signature `(result, error)`; the others return
an `error` only. -/
def Op.returnsResult : Op → Bool
  | .SendSecurityCode _ => false
  | .Configure2FA _ => false
  | .ChangePassword _ => false
  | .DeleteDepositAccount _ _ => false
  | _ => true

/-- What an operation hands back, as far as the caller's error handling goes:
whether the result is nil (always so for an operation without a result), and the
error. -/
structure Outcome where
  resultIsNil : Bool
  err : Option GoError
  deriving DecidableEq

/-- Runs the operation on the client. -/
def Op.run (op : Op) (c : Client) : Outcome × Client :=
  match op with
  | .GetUserProfile =>
    let r := c.GetUserProfile
    (⟨r.1.1.isNone, r.1.2⟩, r.2)
  | .SendSecurityCode req =>
    let r := c.SendSecurityCode req
    (⟨true, r.1⟩, r.2)
  | .ValidateSecurityToken req =>
    let r := c.ValidateSecurityToken req
    (⟨r.1.1.isNone, r.1.2⟩, r.2)
  | .Configure2FA req =>
    let r := c.Configure2FA req
    (⟨true, r.1⟩, r.2)
  | .Get2FASecret =>
    let r := c.Get2FASecret
    (⟨r.1.1.isNone, r.1.2⟩, r.2)
  | .ChangePassword req =>
    let r := c.ChangePassword req
    (⟨true, r.1⟩, r.2)
  | .DisableUserAccount =>
    let r := c.DisableUserAccount
    (⟨r.1.1.isNone, r.1.2⟩, r.2)
  | .AddTropicardAccount req =>
    let r := c.AddTropicardAccount req
    (⟨r.1.1.isNone, r.1.2⟩, r.2)
  | .GetCryptoAddressForSelfCharge accountID =>
    let r := c.GetCryptoAddressForSelfCharge accountID
    (⟨r.1.1.isNone, r.1.2⟩, r.2)
  | .CreateDepositAccount req =>
    let r := c.CreateDepositAccount req
    (⟨r.1.1.isNone, r.1.2⟩, r.2)
  | .ListDepositAccounts limit offset search =>
    let r := c.ListDepositAccounts limit offset search
    (⟨r.1.1.isNone, r.1.2⟩, r.2)
  | .GetDepositAccount id =>
    let r := c.GetDepositAccount id
    (⟨r.1.1.isNone, r.1.2⟩, r.2)
  | .UpdateDepositAccount req =>
    let r := c.UpdateDepositAccount req
    (⟨r.1.1.isNone, r.1.2⟩, r.2)
  | .DeleteDepositAccount id securityCode =>
    let r := c.DeleteDepositAccount id securityCode
    (⟨true, r.1⟩, r.2)
  | .ValidateAccountNumber req =>
    let r := c.ValidateAccountNumber req
    (⟨r.1.1.isNone, r.1.2⟩, r.2)
  | .ListMovements limit offset filter =>
    let r := c.ListMovements limit offset filter
    (⟨r.1.1.isNone, r.1.2⟩, r.2)
  | .ListAccountMovements accountID limit offset filter =>
    let r := c.ListAccountMovements accountID limit offset filter
    (⟨r.1.1.isNone, r.1.2⟩, r.2)
  | .SearchMovements filter limit offset =>
    let r := c.SearchMovements filter limit offset
    (⟨r.1.1.isNone, r.1.2⟩, r.2)

/-- The requests issued between two states of a client, each with the error that
`Request` returned for it. -/
def issued (before after : Client) : List (Call × Option GoError) :=
  after.trace.drop before.trace.length

/-- A client whose `Request` always succeeds and, for the GraphQL wrapper, leaves
the given response in the output variable. -/
def answerGraphQL (resp : GqlResp) : (call : Call) → call.out.Val →
    Option GoError × call.out.Val
  | ⟨_, _, _, .gqlResp⟩, _ => (none, resp)
  | ⟨_, _, _, _⟩, out => (none, out)

/-- A client whose `Request` always fails with the given error. -/
def failWith (e : GoError) : (call : Call) → call.out.Val → Option GoError × call.out.Val :=
  fun _ out => (some e, out)

/-! ## The request pipeline, from the specification -/

/-- Modelled from the spec: the environments of section 3 (client.go, which
declares them, is not among the sources). -/
inductive Environment where
  | Sandbox
  | Production
  deriving DecidableEq, Inhabited

/-- Modelled from the spec: the token of section 3, an access token and its expiry
time (client.go is not among the sources). Time is a count of seconds. -/
structure Token where
  accessToken : String
  expiresAt : Nat
  deriving DecidableEq, Inhabited

/-- Modelled from the spec: the request that step 3 of section 4.2 builds: method,
absolute URL, serialized body if any, and the three headers (client.go is not
among the sources). -/
structure HttpRequest where
  method : String
  url : String
  body : Option String
  authorization : String
  contentType : String
  accept : String
  deriving DecidableEq, Inhabited

/-- Modelled from the spec: what the transport gives back for a request sent
(step 4 of section 4.2): a transport-level failure, or a response with its status
and body. -/
inductive TransportReply where
  | failure (message : String)
  | response (status : Nat) (body : String)
  deriving DecidableEq, Inhabited

/-- Modelled from the spec: the client of section 3 as the pipeline of section 4.2
sees it (client.go is not among the sources). The configuration: environment, base
URLs, expiry safety margin. The collaborators the specification leaves open, as
parameters: the clock reading `now`, the token endpoint (its answer to the k-th
acquisition: access token and lifetime in seconds, or the error `Acquire` maps the
failure to), the resource server (its answer to a request, given the requests sent
before), the JSON serializer of bodies, the generic decode capability of output
targets, and the decoder of error payloads (code and message). The state: the
cached token, and what has happened so far (acquisitions made, forced refreshes
made, requests sent, oldest first). -/
structure Pipeline where
  environment : Environment
  baseURL : Environment → String
  margin : Nat
  now : Nat
  tokenEndpoint : Nat → Except GoError (String × Nat)
  server : List HttpRequest → HttpRequest → TransportReply
  serialize : Body → String
  decode : (t : Target) → String → Option t.Val
  errorPayload : String → Option String × String
  cached : Option Token
  acquisitions : Nat
  forcedRefreshes : Nat
  sent : List HttpRequest

/-- Modelled from the spec: `Acquire` of section 4.1. One token request; on success
the token expires at `now + expires_in` and is cached, on failure the error is
returned and nothing is cached. -/
def Pipeline.Acquire (p : Pipeline) : Except GoError Token × Pipeline :=
  match p.tokenEndpoint p.acquisitions with
  | .ok (accessToken, expiresIn) =>
    let token : Token := ⟨accessToken, p.now + expiresIn⟩
    (.ok token, { p with cached := some token, acquisitions := p.acquisitions + 1 })
  | .error e => (.error e, { p with acquisitions := p.acquisitions + 1 })

/-- Modelled from the spec: `GetToken` of section 4.1. The cached token if present
and not within the expiry safety margin, otherwise `Acquire`. -/
def Pipeline.GetToken (p : Pipeline) : Except GoError Token × Pipeline :=
  match p.cached with
  | some token => if p.now + p.margin ≤ token.expiresAt then (.ok token, p) else p.Acquire
  | none => p.Acquire

/-- Modelled from the spec: `ForceRefresh` of section 4.1. Discards the cached token
unconditionally and performs `Acquire`. -/
def Pipeline.ForceRefresh (p : Pipeline) : Except GoError Token × Pipeline :=
  Pipeline.Acquire { p with cached := none, forcedRefreshes := p.forcedRefreshes + 1 }

/-- Whether a body argument is nil (no body to serialize). -/
def Body.isNil : Body → Bool
  | Body.nil => true
  | _ => false

/-- Modelled from the spec: steps 1 and 3 of section 4.2. The request for a call:
the method, the base URL of the environment followed by the path, the body
serialized if there is one, the bearer token, and the two JSON headers. -/
def Pipeline.build (p : Pipeline) (token : Token) (method path : String) (body : Body) :
    HttpRequest :=
  { method := method
    url := p.baseURL p.environment ++ path
    body := if body.isNil then none else some (p.serialize body)
    authorization := "Bearer " ++ token.accessToken
    contentType := "application/json"
    accept := "application/json" }

/-- Modelled from the spec: step 4 of section 4.2. Sends the request over the
transport. -/
def Pipeline.send (p : Pipeline) (req : HttpRequest) : TransportReply × Pipeline :=
  (p.server p.sent req, { p with sent := p.sent ++ [req] })

/-- Modelled from the spec: step 6 of section 4.2. For the GraphQL wrapper, a
decoded response with a non-empty `errors` array is an `APIError` with no code and
the first error's message. -/
def Pipeline.graphQLCheck (status : Nat) (raw : String) : (t : Target) → t.Val → Option GoError
  | .gqlResp, resp =>
    match resp.Errors with
    | e0 :: _ => some (.APIError status none e0.Message raw)
    | [] => none
  | _, _ => none

/-- Modelled from the spec: step 5 of section 4.2 for an attempt that is not retried
(and step 4 for a transport failure). 2xx: decode into the output target if there is
one, a failure to decode is a `DecodeError` with the raw body. Any other status: an
`APIError` with the status, the decoded code and message, and the raw body. -/
def Pipeline.conclude (p : Pipeline) (reply : TransportReply) (t : Target) (out : t.Val) :
    Option GoError × t.Val :=
  match reply with
  | .failure message => (some (.NetworkError message), out)
  | .response status raw =>
    if 200 ≤ status ∧ status < 300 then
      match t with
      | .nil => (none, out)
      | t =>
        match p.decode t raw with
        | some v => (Pipeline.graphQLCheck status raw t v, v)
        | none => (some (.DecodeError raw "decode"), out)
    else
      (some (.APIError status (p.errorPayload raw).1 (p.errorPayload raw).2 raw), out)

/-- Modelled from the spec: `Execute(method, path, body, out)` of section 4.2, the
`Request` of the client. A token is obtained (its failure is returned unchanged,
step 2); the request is built and sent; a 401 on this first attempt forces a refresh
and, "on success" of the refresh (step 5), the request is rebuilt with the new token
and sent once more, the outcome of that second attempt being returned as it is;
every other outcome of the first attempt is returned as it is. Step 5 does not say
what a failed refresh leads to; no request can be rebuilt "with the new token" then,
and the error of the refresh is returned, as section 7 has it (an `AuthError` is a
token acquisition that "failed even after the one permitted refresh", and "the
pipeline never swallows an error"). -/
def Pipeline.Execute (p : Pipeline) (method path : String) (body : Body) (t : Target)
    (out : t.Val) : (Option GoError × t.Val) × Pipeline :=
  match p.GetToken with
  | (.error e, p1) => ((some e, out), p1)
  | (.ok token, p1) =>
    match p1.send (p1.build token method path body) with
    | (.response 401 _, p2) =>
      match p2.ForceRefresh with
      | (.error e, p3) => ((some e, out), p3)
      | (.ok token2, p3) =>
        match p3.send (p3.build token2 method path body) with
        | (reply2, p4) => (p4.conclude reply2 t out, p4)
    | (reply, p2) => (p2.conclude reply t out, p2)

/-! ## The words of the specification -/

/-- The methods of the resource-call contract. -/
def methods : List String := ["GET", "POST", "PUT", "DELETE"]

/-- A request as the resource-call contract wants it: one of the four methods, and
a path that begins with `/`. -/
def Call.wellFormed (call : Call) : Prop :=
  call.method ∈ methods ∧ call.path.data.head? = some '/'

/-- A numeric query parameter as the specification words it: present exactly when
the number is positive, with the decimal rendering of the number as its value. -/
def Spec.numParam (key : String) (n : Int) : List String :=
  if n > 0 then [key ++ "=" ++ Itoa n] else []

/-- The query string as the specification words it: nothing when no parameter is
present, otherwise one `?` followed by the parameters joined by `&`. -/
def Spec.queryString (params : List String) : String :=
  if params = [] then "" else "?" ++ "&".intercalate params

/-- The query string of a listing as the specification words it: `limit`, `offset`
and then the third parameter (`search` or `query`), each only when present. -/
def Spec.listQuery (limit offset : Int) (third : List String) : String :=
  Spec.queryString (Spec.numParam "limit" limit ++ Spec.numParam "offset" offset ++ third)

/-- Splits a list of characters at every occurrence of the separator. -/
def Spec.splitOn (sep : Char) : List Char → List (List Char)
  | [] => [[]]
  | c :: cs =>
    if c = sep then [] :: Spec.splitOn sep cs
    else
      match Spec.splitOn sep cs with
      | [] => [[c]]
      | seg :: segs => (c :: seg) :: segs

/-- The segments of a request path: the part before the first `?`, split on `/`.
A path that begins with `/` has the empty string as its first segment. -/
def Spec.pathSegments (path : String) : List String :=
  (Spec.splitOn '/' (path.data.takeWhile (fun ch => ch ≠ '?'))).map String.mk

/-- The `search` parameter as the specification words it: present exactly when the
search text is not empty, with the URL-escaped text as its value. -/
def Spec.searchParam (search : String) : List String :=
  if search = "" then [] else ["search=" ++ QueryEscape search]

/-- The `query` parameter as the specification words it: present exactly when the
filter is not nil, with the URL-escaped JSON serialization of the filter as its
value. -/
def Spec.filterParam (filter : Option MovementFilter) : List String :=
  match filter with
  | none => []
  | some f => ["query=" ++ QueryEscape (jsonObject f.members)]

/-- A piece of a query string that holds neither `?` nor `&`. -/
def queryPlain (s : String) : Prop :=
  ∀ ch ∈ s.data, ch ≠ '?' ∧ ch ≠ '&'

/-- The ten decimal digit characters. -/
def digitChars : List Char := ['0', '1', '2', '3', '4', '5', '6', '7', '8', '9']

/-! ## Readers of escaped text -/

/-- The value of a hexadecimal digit, in either case. -/
def Spec.hexValue (c : Char) : Option Nat :=
  if 48 ≤ c.toNat ∧ c.toNat ≤ 57 then some (c.toNat - 48)
  else if 97 ≤ c.toNat ∧ c.toNat ≤ 102 then some (c.toNat - 87)
  else if 65 ≤ c.toNat ∧ c.toNat ≤ 70 then some (c.toNat - 55)
  else none

/-- Where the reader of a URL-escaped text stands. -/
inductive Spec.PercentState where
  | plain
  | first
  | second (high : Nat)

/-- URL unescaping of a query component from a state of the reader: `+` is a space,
`%XY` the byte with the hexadecimal digits X and Y, every other ASCII character
itself. -/
def Spec.queryUnescapeFrom : Spec.PercentState → List Char → Option (List Nat)
  | .plain, [] => some []
  | .first, [] => none
  | .second _, [] => none
  | .plain, c :: rest =>
    if c = '+' then (Spec.queryUnescapeFrom .plain rest).map (fun bytes => 32 :: bytes)
    else if c = '%' then Spec.queryUnescapeFrom .first rest
    else if c.toNat < 128 then
      (Spec.queryUnescapeFrom .plain rest).map (fun bytes => c.toNat :: bytes)
    else none
  | .first, c :: rest =>
    match Spec.hexValue c with
    | some high => Spec.queryUnescapeFrom (.second high) rest
    | none => none
  | .second high, c :: rest =>
    match Spec.hexValue c with
    | some low => (Spec.queryUnescapeFrom .plain rest).map (fun bytes => (16 * high + low) :: bytes)
    | none => none

/-- URL unescaping of a whole query component: the bytes it stands for, or nothing
when it is not a well-formed escaped text. -/
def Spec.queryUnescape (l : List Char) : Option (List Nat) :=
  Spec.queryUnescapeFrom .plain l

/-- The character a one-letter JSON escape stands for. -/
def Spec.simpleEscape (c : Char) : Option Char :=
  if c = '"' then some '"'
  else if c = '\\' then some '\\'
  else if c = '/' then some '/'
  else if c = 'b' then some (Char.ofNat 8)
  else if c = 'f' then some (Char.ofNat 12)
  else if c = 'n' then some (Char.ofNat 10)
  else if c = 'r' then some (Char.ofNat 13)
  else if c = 't' then some (Char.ofNat 9)
  else none

/-- Where the reader of a JSON string stands. -/
inductive Spec.StringState where
  | plain
  | escape
  | hex (remaining : Nat) (value : Nat)

/-- Reads the inside of a JSON string literal up to its closing quote (RFC 8259): the
characters it denotes, and the text left after the closing quote. A backslash
introduces a one-letter escape or `u` and four hexadecimal digits; a raw control
character is not allowed. -/
def Spec.jsonUnescapeFrom : Spec.StringState → List Char → Option (List Char × List Char)
  | _, [] => none
  | .plain, c :: rest =>
    if c = '"' then some ([], rest)
    else if c = '\\' then Spec.jsonUnescapeFrom .escape rest
    else if c.toNat < 32 then none
    else (Spec.jsonUnescapeFrom .plain rest).map (fun (r : List Char × List Char) => (c :: r.1, r.2))
  | .escape, c :: rest =>
    if c = 'u' then Spec.jsonUnescapeFrom (.hex 3 0) rest
    else
      match Spec.simpleEscape c with
      | some ch => (Spec.jsonUnescapeFrom .plain rest).map (fun (r : List Char × List Char) => (ch :: r.1, r.2))
      | none => none
  | .hex remaining value, c :: rest =>
    match Spec.hexValue c with
    | none => none
    | some digit =>
      match remaining with
      | 0 => (Spec.jsonUnescapeFrom .plain rest).map
          (fun (r : List Char × List Char) => (Char.ofNat (16 * value + digit) :: r.1, r.2))
      | k + 1 => Spec.jsonUnescapeFrom (.hex k (16 * value + digit)) rest

/-- Reads a JSON string literal at the head of a text: the characters it denotes, and
the text left after it. -/
def Spec.jsonUnquote : List Char → Option (List Char × List Char)
  | [] => none
  | c :: rest => if c = '"' then Spec.jsonUnescapeFrom .plain rest else none

/-! ## Concrete clients -/

/-- A GraphQL response whose `data.movements` decoded (three movements in total, no
items on this page) and whose `errors` array holds one error. -/
def boomResp : GqlResp :=
  ⟨⟨⟨[], 3, false⟩⟩, [⟨"boom"⟩]⟩

/-- A client whose `Request` succeeds and decodes `boomResp` into the GraphQL
wrapper. -/
def boomClient : Client :=
  ⟨fun _ => answerGraphQL boomResp, []⟩

/-- A client whose `Request` fails with a network error. -/
def downClient : Client :=
  ⟨fun _ => failWith (GoError.NetworkError "down"), []⟩

/-- A token endpoint that grants a token at every acquisition: `T1` at the first,
`T2` afterwards, each valid for an hour. -/
def grantAlways : Nat → Except GoError (String × Nat) :=
  fun k => if k = 0 then .ok ("T1", 3600) else .ok ("T2", 3600)

/-- A token endpoint that grants `T1` at the first acquisition and refuses every
later one. -/
def grantOnce : Nat → Except GoError (String × Nat) :=
  fun k => if k = 0 then .ok ("T1", 3600) else .error (.AuthError "invalid_client")

/-- A pipeline with no cached token, the given token endpoint, and a resource
server that answers every request with 401. -/
def rejectingPipeline (tokenEndpoint : Nat → Except GoError (String × Nat)) : Pipeline :=
  { environment := Environment.Sandbox
    baseURL := fun _ => "https://sandbox.test"
    margin := 60
    now := 0
    tokenEndpoint := tokenEndpoint
    server := fun _ _ => TransportReply.response 401 "unauthorized"
    serialize := fun _ => ""
    decode := fun _ _ => none
    errorPayload := fun raw => (none, raw)
    cached := none
    acquisitions := 0
    forcedRefreshes := 0
    sent := [] }

/-- A filter whose fields are all zero values. -/
def zeroFilter : MovementFilter :=
  ⟨[], "", 0, 0, "", "", "", ""⟩

/-- The number a list of decimal digit characters reads as. -/
def decimalValue (l : List Char) : Nat :=
  l.foldl (fun acc ch => 10 * acc + (ch.toNat - 48)) 0

/-- A filter with every kind of field set, one string field left empty. -/
def sampleFilter : MovementFilter :=
  ⟨["pending", "x y"], "USD", 5, -3, "2020-01-01T00:00:00Z", "", "r&f<g>", "acc/1"⟩

/-! ## Decimal rendering and URL escaping -/

theorem digitChar_mem (k : Nat) (hk : k < 10) : Nat.digitChar k ∈ digitChars := by
  interval_cases k <;> decide

theorem toDigitsCore_mem (fuel : Nat) : ∀ (n : Nat) (acc : List Char),
    (∀ c ∈ acc, c ∈ digitChars) → ∀ c ∈ Nat.toDigitsCore 10 fuel n acc, c ∈ digitChars := by
  induction fuel with
  | zero =>
    intro n acc h c hc
    exact h c (by simpa [Nat.toDigitsCore] using hc)
  | succ fuel ih =>
    intro n acc h c hc
    have hd : Nat.digitChar (n % 10) ∈ digitChars := digitChar_mem _ (Nat.mod_lt _ (by decide))
    have hacc : ∀ x ∈ Nat.digitChar (n % 10) :: acc, x ∈ digitChars := by
      intro x hx
      rcases List.mem_cons.mp hx with rfl | hx
      · exact hd
      · exact h x hx
    simp only [Nat.toDigitsCore] at hc
    split at hc
    · exact hacc c hc
    · exact ih _ _ hacc c hc

theorem toDigits_mem (n : Nat) : ∀ c ∈ Nat.toDigits 10 n, c ∈ digitChars :=
  toDigitsCore_mem _ _ _ (by simp)

theorem escape_digit (c : Char) (hc : c ∈ digitChars) :
    ((String.utf8EncodeChar c).map UInt8.toNat).flatMap escapeByte = [c] := by
  simp only [digitChars, List.mem_cons, List.mem_singleton, List.not_mem_nil, or_false] at hc
  rcases hc with rfl | rfl | rfl | rfl | rfl | rfl | rfl | rfl | rfl | rfl <;> decide

theorem utf8Bytes_cons (c : Char) (l : List Char) :
    utf8Bytes ⟨c :: l⟩ = (String.utf8EncodeChar c).map UInt8.toNat ++ utf8Bytes ⟨l⟩ := by
  simp [utf8Bytes]

theorem QueryEscape_digits (l : List Char) (h : ∀ c ∈ l, c ∈ digitChars) :
    QueryEscape ⟨l⟩ = ⟨l⟩ := by
  induction l with
  | nil => rfl
  | cons c l ih =>
    have h1 := escape_digit c (h c (by simp))
    have h2 : (utf8Bytes ⟨l⟩).flatMap escapeByte = l :=
      congrArg String.data (ih (fun x hx => h x (by simp [hx])))
    simp only [QueryEscape]
    rw [utf8Bytes_cons, List.flatMap_append, h1, h2]
    rfl

theorem QueryEscape_Itoa (i : Int) (hi : 0 < i) : QueryEscape (Itoa i) = Itoa i := by
  cases i with
  | ofNat n => exact QueryEscape_digits _ (toDigits_mem n)
  | negSucc n => exact absurd hi (by simp)

/-! ## The paths built by the listing operations -/

theorem listDepositParams_path (base : String) (limit offset : Int) (search : String) :
    (if (listDepositParams limit offset search).length > 0
      then base ++ "?" ++ (listDepositParams limit offset search).Encode else base) =
    base ++ Spec.listQuery limit offset (Spec.searchParam search) := by
  have k1 : QueryEscape "limit" = "limit" := by decide
  have k2 : QueryEscape "offset" = "offset" := by decide
  have k3 : QueryEscape "search" = "search" := by decide
  have o1 : ['l', 'i', 'm', 'i', 't'] ≤ ['o', 'f', 'f', 's', 'e', 't'] := by decide
  have o2 : ['l', 'i', 'm', 'i', 't'] ≤ ['s', 'e', 'a', 'r', 'c', 'h'] := by decide
  have o3 : ['o', 'f', 'f', 's', 'e', 't'] ≤ ['s', 'e', 'a', 'r', 'c', 'h'] := by decide
  by_cases h1 : limit > 0 <;> by_cases h2 : offset > 0 <;> by_cases h3 : search = "" <;>
    simp [h1, h2, h3, listDepositParams, Values.Add, Values.Encode, Values.pairs,
      Spec.listQuery, Spec.queryString, Spec.numParam, Spec.searchParam, List.insertionSort,
      List.orderedInsert, k1, k2, k3, QueryEscape_Itoa, String.intercalate,
      String.intercalate.go, o1, o2, o3] <;>
    (apply String.ext; simp [String.data_append])

theorem listMovementsParams_path (base : String) (limit offset : Int)
    (filter : Option MovementFilter) :
    ∃ params, listMovementsParams limit offset filter = .ok params ∧
      (if params.length > 0 then base ++ "?" ++ params.Encode else base) =
      base ++ Spec.listQuery limit offset (Spec.filterParam filter) := by
  have k1 : QueryEscape "limit" = "limit" := by decide
  have k2 : QueryEscape "offset" = "offset" := by decide
  have k3 : QueryEscape "query" = "query" := by decide
  have o1 : ['l', 'i', 'm', 'i', 't'] ≤ ['o', 'f', 'f', 's', 'e', 't'] := by decide
  have o2 : ['l', 'i', 'm', 'i', 't'] ≤ ['q', 'u', 'e', 'r', 'y'] := by decide
  have o3 : ['o', 'f', 'f', 's', 'e', 't'] ≤ ['q', 'u', 'e', 'r', 'y'] := by decide
  cases filter with
  | none =>
    refine ⟨_, rfl, ?_⟩
    by_cases h1 : limit > 0 <;> by_cases h2 : offset > 0 <;>
      simp [h1, h2, Values.Add, Values.Encode, Values.pairs,
        Spec.listQuery, Spec.queryString, Spec.numParam, Spec.filterParam, List.insertionSort,
        List.orderedInsert, k1, k2, QueryEscape_Itoa, String.intercalate,
        String.intercalate.go, o1] <;>
      (apply String.ext; simp [String.data_append])
  | some f =>
    refine ⟨_, rfl, ?_⟩
    by_cases h1 : limit > 0 <;> by_cases h2 : offset > 0 <;>
      simp [h1, h2, Values.Add, Values.Encode, Values.pairs,
        Spec.listQuery, Spec.queryString, Spec.numParam, Spec.filterParam, List.insertionSort,
        List.orderedInsert, k1, k2, k3, QueryEscape_Itoa, String.intercalate,
        String.intercalate.go, o1, o2, o3] <;>
      (apply String.ext; simp [String.data_append])

/-! ## What each operation does with `Request` -/

theorem issued_append (c : Client) (x : List (Call × Option GoError)) :
    issued c ⟨c.pipeline, c.trace ++ x⟩ = x := by
  simp [issued]

theorem listMovementsCommon_eq (c : Client) (path : String) (limit offset : Int)
    (filter : Option MovementFilter) :
    c.listMovementsCommon path limit offset filter =
      ((match (c.pipeline c.trace ⟨"GET", path ++ Spec.listQuery limit offset
            (Spec.filterParam filter), Body.nil, Target.ListMovementsResponse⟩ default).1 with
        | some err => (none, some err)
        | none => (some (c.pipeline c.trace ⟨"GET", path ++ Spec.listQuery limit offset
            (Spec.filterParam filter), Body.nil, Target.ListMovementsResponse⟩ default).2, none)),
       ⟨c.pipeline, c.trace ++ [(⟨"GET", path ++ Spec.listQuery limit offset
            (Spec.filterParam filter), Body.nil, Target.ListMovementsResponse⟩,
          (c.pipeline c.trace ⟨"GET", path ++ Spec.listQuery limit offset
            (Spec.filterParam filter), Body.nil, Target.ListMovementsResponse⟩ default).1)]⟩) := by
  obtain ⟨params, hp, hpath⟩ := listMovementsParams_path path limit offset filter
  unfold Client.listMovementsCommon
  rw [hp]
  simp only [Client.Request]
  rw [hpath]
  split <;> simp_all

theorem ListDepositAccounts_eq (c : Client) (limit offset : Int) (search : String) :
    c.ListDepositAccounts limit offset search =
      ((match (c.pipeline c.trace ⟨"GET", "/depositaccounts/" ++ Spec.listQuery limit offset
            (Spec.searchParam search), Body.nil, Target.listDepositAccountsResponse⟩ default).1 with
        | some err => (none, some err)
        | none => ((c.pipeline c.trace ⟨"GET", "/depositaccounts/" ++
            Spec.listQuery limit offset (Spec.searchParam search), Body.nil,
            Target.listDepositAccountsResponse⟩ default).2.Items, none)),
       ⟨c.pipeline, c.trace ++ [(⟨"GET", "/depositaccounts/" ++ Spec.listQuery limit offset
            (Spec.searchParam search), Body.nil, Target.listDepositAccountsResponse⟩,
          (c.pipeline c.trace ⟨"GET", "/depositaccounts/" ++ Spec.listQuery limit offset
            (Spec.searchParam search), Body.nil, Target.listDepositAccountsResponse⟩ default).1)]⟩) := by
  unfold Client.ListDepositAccounts
  simp only [Client.Request]
  rw [listDepositParams_path]
  split <;> simp_all

/-- Every operation issues one request through `Request`, well formed for the
resource-call contract; an error of that request is handed back as it is with a nil
result; an operation without a result passes a nil output target and hands back
whatever `Request` returns. -/
theorem Op.run_cases (op : Op) (c : Client) :
    ∃ (call : Call) (out : call.out.Val),
      (op.run c).2 = ⟨c.pipeline, c.trace ++ [(call, (c.pipeline c.trace call out).1)]⟩ ∧
      call.wellFormed ∧
      (∀ e, (c.pipeline c.trace call out).1 = some e → (op.run c).1 = ⟨true, some e⟩) ∧
      (op.returnsResult = false →
        call.out = Target.nil ∧ (op.run c).1.err = (c.pipeline c.trace call out).1) := by
  cases op
  case GetUserProfile =>
    refine ⟨⟨"GET", "/users/profile", Body.nil, Target.User⟩, default, ?_, ?_, ?_, ?_⟩
    · simp only [Op.run, Client.GetUserProfile, Client.Request]
      split <;> rfl
    · simp [Call.wellFormed, methods]
    · intro e he
      simp only [Op.run, Client.GetUserProfile, Client.Request]
      simp [he]
    · intro h; exact absurd h (by simp [Op.returnsResult])
  case SendSecurityCode req =>
    refine ⟨⟨"POST", "/users/sendSecurityCode", Body.SendSecurityCodeRequest req, Target.nil⟩, default, ?_, ?_, ?_, ?_⟩
    · simp only [Op.run, Client.SendSecurityCode, Client.Request]
    · simp [Call.wellFormed, methods]
    · intro e he
      simp only [Op.run, Client.SendSecurityCode, Client.Request]
      simp [he]
    · intro _; exact ⟨rfl, rfl⟩
  case ValidateSecurityToken req =>
    refine ⟨⟨"POST", "/users/validateToken", Body.ValidateSecurityTokenRequest req,
      Target.ValidateSecurityTokenResponse⟩, default, ?_, ?_, ?_, ?_⟩
    · simp only [Op.run, Client.ValidateSecurityToken, Client.Request]
      split <;> rfl
    · simp [Call.wellFormed, methods]
    · intro e he
      simp only [Op.run, Client.ValidateSecurityToken, Client.Request]
      simp [he]
    · intro h; exact absurd h (by simp [Op.returnsResult])
  case Configure2FA req =>
    refine ⟨⟨"POST", "/users/2fa", Body.Configure2FARequest req, Target.nil⟩, default, ?_, ?_, ?_, ?_⟩
    · simp only [Op.run, Client.Configure2FA, Client.Request]
    · simp [Call.wellFormed, methods]
    · intro e he
      simp only [Op.run, Client.Configure2FA, Client.Request]
      simp [he]
    · intro _; exact ⟨rfl, rfl⟩
  case Get2FASecret =>
    refine ⟨⟨"POST", "/users/2fa/secret", Body.nil, Target.Get2FASecretResponse⟩, default, ?_, ?_, ?_, ?_⟩
    · simp only [Op.run, Client.Get2FASecret, Client.Request]
      split <;> rfl
    · simp [Call.wellFormed, methods]
    · intro e he
      simp only [Op.run, Client.Get2FASecret, Client.Request]
      simp [he]
    · intro h; exact absurd h (by simp [Op.returnsResult])
  case ChangePassword req =>
    refine ⟨⟨"POST", "/users/pass", Body.ChangePasswordRequest req, Target.nil⟩, default, ?_, ?_, ?_, ?_⟩
    · simp only [Op.run, Client.ChangePassword, Client.Request]
    · simp [Call.wellFormed, methods]
    · intro e he
      simp only [Op.run, Client.ChangePassword, Client.Request]
      simp [he]
    · intro _; exact ⟨rfl, rfl⟩
  case DisableUserAccount =>
    refine ⟨⟨"POST", "/users/disable", Body.nil, Target.DisableUserResponse⟩, default, ?_, ?_, ?_, ?_⟩
    · simp only [Op.run, Client.DisableUserAccount, Client.Request]
      split <;> rfl
    · simp [Call.wellFormed, methods]
    · intro e he
      simp only [Op.run, Client.DisableUserAccount, Client.Request]
      simp [he]
    · intro h; exact absurd h (by simp [Op.returnsResult])
  case AddTropicardAccount req =>
    refine ⟨⟨"POST", "/accounts/", Body.AddTropicardAccountRequest req, Target.mapStringAny⟩,
      none, ?_, ?_, ?_, ?_⟩
    · simp only [Op.run, Client.AddTropicardAccount, Client.Request]
      split <;> rfl
    · simp [Call.wellFormed, methods]
    · intro e he
      simp only [Op.run, Client.AddTropicardAccount, Client.Request]
      simp [he]
    · intro h; exact absurd h (by simp [Op.returnsResult])
  case GetCryptoAddressForSelfCharge accountID =>
    refine ⟨⟨"GET", "/accounts/" ++ accountID ++ "/selfcharge/crypto", Body.nil,
      Target.GetCryptoAddressResponse⟩, default, ?_, ?_, ?_, ?_⟩
    · simp only [Op.run, Client.GetCryptoAddressForSelfCharge, Client.Request]
      split <;> rfl
    · simp [Call.wellFormed, methods]
    · intro e he
      simp only [Op.run, Client.GetCryptoAddressForSelfCharge, Client.Request]
      simp [he]
    · intro h; exact absurd h (by simp [Op.returnsResult])
  case CreateDepositAccount req =>
    refine ⟨⟨"POST", "/depositaccounts/", Body.CreateDepositAccountRequest req,
      Target.DepositAccount⟩, default, ?_, ?_, ?_, ?_⟩
    · simp only [Op.run, Client.CreateDepositAccount, Client.Request]
      split <;> rfl
    · simp [Call.wellFormed, methods]
    · intro e he
      simp only [Op.run, Client.CreateDepositAccount, Client.Request]
      simp [he]
    · intro h; exact absurd h (by simp [Op.returnsResult])
  case ListDepositAccounts limit offset search =>
    refine ⟨⟨"GET", "/depositaccounts/" ++ Spec.listQuery limit offset (Spec.searchParam search),
      Body.nil, Target.listDepositAccountsResponse⟩, default, ?_, ?_, ?_, ?_⟩
    · simp only [Op.run, ListDepositAccounts_eq]
    · simp [Call.wellFormed, methods]
    · intro e he
      simp only [Op.run, ListDepositAccounts_eq]
      simp [he]
    · intro h; exact absurd h (by simp [Op.returnsResult])
  case GetDepositAccount id =>
    refine ⟨⟨"GET", "/depositaccounts/" ++ Itoa id, Body.nil, Target.DepositAccount⟩, default, ?_, ?_, ?_, ?_⟩
    · simp only [Op.run, Client.GetDepositAccount, Client.Request]
      split <;> rfl
    · simp [Call.wellFormed, methods]
    · intro e he
      simp only [Op.run, Client.GetDepositAccount, Client.Request]
      simp [he]
    · intro h; exact absurd h (by simp [Op.returnsResult])
  case UpdateDepositAccount req =>
    refine ⟨⟨"PUT", "/depositaccounts/", Body.UpdateDepositAccountRequest req,
      Target.DepositAccount⟩, default, ?_, ?_, ?_, ?_⟩
    · simp only [Op.run, Client.UpdateDepositAccount, Client.Request]
      split <;> rfl
    · simp [Call.wellFormed, methods]
    · intro e he
      simp only [Op.run, Client.UpdateDepositAccount, Client.Request]
      simp [he]
    · intro h; exact absurd h (by simp [Op.returnsResult])
  case DeleteDepositAccount id securityCode =>
    refine ⟨⟨"DELETE", "/depositaccounts/" ++ Itoa id,
      Body.DeleteDepositAccountRequest ⟨securityCode⟩, Target.nil⟩, default, ?_, ?_, ?_, ?_⟩
    · simp only [Op.run, Client.DeleteDepositAccount, Client.Request]
    · simp [Call.wellFormed, methods]
    · intro e he
      simp only [Op.run, Client.DeleteDepositAccount, Client.Request]
      simp [he]
    · intro _; exact ⟨rfl, rfl⟩
  case ValidateAccountNumber req =>
    refine ⟨⟨"POST", "/depositaccounts/validateaccountnumber",
      Body.ValidateAccountNumberRequest req, Target.ValidateAccountNumberResponse⟩, default, ?_, ?_, ?_, ?_⟩
    · simp only [Op.run, Client.ValidateAccountNumber, Client.Request]
      split <;> rfl
    · simp [Call.wellFormed, methods]
    · intro e he
      simp only [Op.run, Client.ValidateAccountNumber, Client.Request]
      simp [he]
    · intro h; exact absurd h (by simp [Op.returnsResult])
  case ListMovements limit offset filter =>
    refine ⟨⟨"GET", "/movements/" ++ Spec.listQuery limit offset (Spec.filterParam filter),
      Body.nil, Target.ListMovementsResponse⟩, default, ?_, ?_, ?_, ?_⟩
    · simp only [Op.run, Client.ListMovements, listMovementsCommon_eq]
    · simp [Call.wellFormed, methods]
    · intro e he
      simp only [Op.run, Client.ListMovements, listMovementsCommon_eq]
      simp [he]
    · intro h; exact absurd h (by simp [Op.returnsResult])
  case ListAccountMovements accountID limit offset filter =>
    refine ⟨⟨"GET", "/accounts/" ++ accountID ++ "/movements" ++
      Spec.listQuery limit offset (Spec.filterParam filter), Body.nil, Target.ListMovementsResponse⟩, default, ?_, ?_, ?_, ?_⟩
    · simp only [Op.run, Client.ListAccountMovements, listMovementsCommon_eq]
    · simp [Call.wellFormed, methods]
    · intro e he
      simp only [Op.run, Client.ListAccountMovements, listMovementsCommon_eq]
      simp [he]
    · intro h; exact absurd h (by simp [Op.returnsResult])
  case SearchMovements filter limit offset =>
    refine ⟨⟨"POST", "/movements/business", Body.graphQLRequest ⟨searchMovementsQuery,
      [("filter", GoValue.filterPtr filter),
       ("pagination", GoValue.mapStringInt [("limit", limit), ("offset", offset)])]⟩,
      Target.gqlResp⟩, default, ?_, ?_, ?_, ?_⟩
    · simp only [Op.run, Client.SearchMovements, Client.Request]
      split <;> [rfl; (split <;> rfl)]
    · simp [Call.wellFormed, methods]
    · intro e he
      simp only [Op.run, Client.SearchMovements, Client.Request]
      simp [he]
    · intro h; exact absurd h (by simp [Op.returnsResult])

/-! ## Claims about error handling and the use of `Request` -/

/-- C1, as stated, fails: with a successful `Request` whose decoded response holds
the error "boom" (and decoded `data.movements`), `SearchMovements` returns no result
and the plain error "graphql error: boom", which is not an `APIError` and whose
message is not exactly "boom". -/
theorem SearchMovements_error_not_APIError :
    boomClient.pipeline boomClient.trace
        ⟨"POST", "/movements/business", Body.graphQLRequest ⟨searchMovementsQuery,
          [("filter", GoValue.filterPtr none),
           ("pagination", GoValue.mapStringInt [("limit", 10), ("offset", 0)])]⟩,
          Target.gqlResp⟩ default = (none, boomResp) ∧
      boomResp.Errors = [⟨"boom"⟩] ∧
      (boomClient.SearchMovements none 10 0).1 =
        (none, some (GoError.errorString "graphql error: boom")) ∧
      ¬ ∃ status raw, (boomClient.SearchMovements none 10 0).1.2 =
          some (GoError.APIError status none "boom" raw) := by
  refine ⟨rfl, rfl, rfl, ?_⟩
  rintro ⟨status, raw, h⟩
  have h2 : (boomClient.SearchMovements none 10 0).1.2 =
      some (GoError.errorString "graphql error: boom") := rfl
  rw [h2] at h
  cases h

/-- C1, amended: when `Request` succeeds and the decoded response carries a non-empty
`errors` array, `SearchMovements` returns no result and the plain error whose text is
"graphql error: " followed by the first error's message, whatever was decoded into
`data.movements`; it never returns success. -/
theorem SearchMovements_graphql_error (c : Client) (filter : Option MovementFilter)
    (limit offset : Int) (resp : GqlResp) (e0 : GqlError) (rest : List GqlError)
    (hreq : c.pipeline c.trace
        ⟨"POST", "/movements/business", Body.graphQLRequest ⟨searchMovementsQuery,
          [("filter", GoValue.filterPtr filter),
           ("pagination", GoValue.mapStringInt [("limit", limit), ("offset", offset)])]⟩,
          Target.gqlResp⟩ default = (none, resp))
    (herr : resp.Errors = e0 :: rest) :
    (c.SearchMovements filter limit offset).1 =
      (none, some (GoError.errorString ("graphql error: " ++ e0.Message))) := by
  simp only [Client.SearchMovements, Client.Request, hreq, herr, graphqlErrorf]

/-- Witness of C1, amended: the client that decodes the error "boom". -/
theorem SearchMovements_graphql_error_witness :
    boomResp.Errors = [⟨"boom"⟩] ∧
      (boomClient.SearchMovements none 10 0).1 =
        (none, some (GoError.errorString ("graphql error: " ++ "boom"))) :=
  ⟨rfl, SearchMovements_graphql_error boomClient none 10 0 boomResp ⟨"boom"⟩ [] rfl rfl⟩

/-- C2: for every operation with a result and an error, whenever the request it
issued came back from `Request` with an error `e`, the operation returns a nil result
together with exactly `e`. -/
theorem request_error_handed_back (op : Op) (c : Client) (call : Call) (e : GoError)
    (_hop : op.returnsResult = true)
    (hreq : (call, some e) ∈ issued c (op.run c).2) :
    (op.run c).1 = ⟨true, some e⟩ := by
  obtain ⟨call0, out, h2, _, h3, _⟩ := Op.run_cases op c
  rw [h2, issued_append, List.mem_singleton] at hreq
  exact h3 e (congrArg Prod.snd hreq).symm

/-- Witness of C2: `GetUserProfile` on a client whose `Request` fails. -/
theorem request_error_handed_back_witness :
    (Op.run Op.GetUserProfile downClient).1 = ⟨true, some (GoError.NetworkError "down")⟩ :=
  request_error_handed_back Op.GetUserProfile downClient
    ⟨"GET", "/users/profile", Body.nil, Target.User⟩ (GoError.NetworkError "down") rfl
    (List.mem_singleton.mpr rfl)

/-- C3: every operation, on every input, issues one request, and that request uses
one of the methods GET, POST, PUT, DELETE and a path that begins with "/". -/
theorem requests_well_formed (op : Op) (c : Client) :
    ∃ call err, issued c (op.run c).2 = [(call, err)] ∧
      call.method ∈ ["GET", "POST", "PUT", "DELETE"] ∧ call.path.data.head? = some '/' := by
  obtain ⟨call, out, h2, h, _, _⟩ := Op.run_cases op c
  exact ⟨call, _, by rw [h2, issued_append], h.1, h.2⟩

/-- C4: each of SendSecurityCode, Configure2FA, ChangePassword and
DeleteDepositAccount issues one request with a nil output target, and returns
exactly what `Request` returned for it (nil on success, the same error on failure). -/
theorem fire_and_forget (c : Client) (r1 : SendSecurityCodeRequest)
    (r2 : Configure2FARequest) (r3 : ChangePasswordRequest) (id : Int)
    (securityCode : String) :
    issued c (c.SendSecurityCode r1).2 =
        [(⟨"POST", "/users/sendSecurityCode", Body.SendSecurityCodeRequest r1, Target.nil⟩,
          (c.SendSecurityCode r1).1)] ∧
      issued c (c.Configure2FA r2).2 =
        [(⟨"POST", "/users/2fa", Body.Configure2FARequest r2, Target.nil⟩,
          (c.Configure2FA r2).1)] ∧
      issued c (c.ChangePassword r3).2 =
        [(⟨"POST", "/users/pass", Body.ChangePasswordRequest r3, Target.nil⟩,
          (c.ChangePassword r3).1)] ∧
      issued c (c.DeleteDepositAccount id securityCode).2 =
        [(⟨"DELETE", "/depositaccounts/" ++ Itoa id,
            Body.DeleteDepositAccountRequest ⟨securityCode⟩, Target.nil⟩,
          (c.DeleteDepositAccount id securityCode).1)] := by
  refine ⟨?_, ?_, ?_, ?_⟩ <;>
    simp [Client.SendSecurityCode, Client.Configure2FA, Client.ChangePassword,
      Client.DeleteDepositAccount, Client.Request, issued]

/-- C5: for every filter, limit and offset, `SearchMovements` issues a POST to
"/movements/business" whose body holds the fixed, non-empty query text and the
variables `filter` (the argument as given) and `pagination` (`limit` and `offset`,
the arguments unchanged). -/
theorem SearchMovements_request (c : Client) (filter : Option MovementFilter)
    (limit offset : Int) :
    (∃ err, issued c (c.SearchMovements filter limit offset).2 =
      [(⟨"POST", "/movements/business",
          Body.graphQLRequest ⟨searchMovementsQuery,
            [("filter", GoValue.filterPtr filter),
             ("pagination", GoValue.mapStringInt [("limit", limit), ("offset", offset)])]⟩,
          Target.gqlResp⟩, err)]) ∧
      searchMovementsQuery ≠ "" := by
  refine ⟨⟨(c.pipeline c.trace ⟨"POST", "/movements/business",
      Body.graphQLRequest ⟨searchMovementsQuery,
        [("filter", GoValue.filterPtr filter),
         ("pagination", GoValue.mapStringInt [("limit", limit), ("offset", offset)])]⟩,
      Target.gqlResp⟩ default).1, ?_⟩, by decide⟩
  simp only [Client.SearchMovements, Client.Request]
  split
  · exact issued_append c _
  · split <;> exact issued_append c _

/-- C6: whatever `Request` returns, every operation invokes `Request` exactly once
per call; no request is issued again after a failure. -/
theorem one_request_per_call (op : Op) (c : Client) :
    (issued c (op.run c).2).length = 1 := by
  obtain ⟨call, out, h2, _, _, _⟩ := Op.run_cases op c
  rw [h2, issued_append]
  rfl

/-! ## The retry of the pipeline after a 401 -/

theorem Acquire_frame (p : Pipeline) :
    p.Acquire.2 =
      { p with cached := p.Acquire.2.cached, acquisitions := p.acquisitions + 1 } := by
  unfold Pipeline.Acquire
  split <;> rfl

theorem GetToken_frame (p : Pipeline) :
    ∃ cached acquisitions,
      p.GetToken.2 = { p with cached := cached, acquisitions := acquisitions } := by
  unfold Pipeline.GetToken
  split
  · split
    · exact ⟨p.cached, p.acquisitions, rfl⟩
    · exact ⟨_, _, Acquire_frame p⟩
  · exact ⟨_, _, Acquire_frame p⟩

/-- C7, as stated, fails: the first attempt receives 401 and the forced refresh is
refused by the token endpoint; one forced refresh is performed but no retried
request is sent: the one request of the first attempt is all that reaches the
transport. -/
theorem Execute_no_retry_when_refresh_fails :
    (rejectingPipeline grantOnce).GetToken.1 = .ok ⟨"T1", 3600⟩ ∧
      (rejectingPipeline grantOnce).server []
        ⟨"GET", "https://sandbox.test/users/profile", none, "Bearer T1",
          "application/json", "application/json"⟩ =
        TransportReply.response 401 "unauthorized" ∧
      ((rejectingPipeline grantOnce).Execute "GET" "/users/profile" Body.nil
        Target.User default).2.forcedRefreshes = 1 ∧
      ((rejectingPipeline grantOnce).Execute "GET" "/users/profile" Body.nil
        Target.User default).2.acquisitions = 2 ∧
      ((rejectingPipeline grantOnce).Execute "GET" "/users/profile" Body.nil
        Target.User default).2.sent =
        [⟨"GET", "https://sandbox.test/users/profile", none, "Bearer T1",
          "application/json", "application/json"⟩] ∧
      ((rejectingPipeline grantOnce).Execute "GET" "/users/profile" Body.nil
        Target.User default).2.sent.length ≠ 2 := by
  refine ⟨rfl, rfl, rfl, rfl, rfl, ?_⟩
  decide

/-- C7, amended: when the first attempt of `Execute` receives 401, exactly one forced
refresh is performed (one more token acquisition). If the refresh succeeds, exactly
one retried request is sent, the request of the first attempt with the new token in
place of the old one, and a 401 on the retry ends the call with an `APIError` of
status 401 carrying the body of that response, no third request being sent; the new
token is the one cached. If the refresh fails, no retried request is sent and no
token stays cached. The request of the first attempt is the
method, the base URL followed by the path, the serialized body if there is one, the
bearer token and the JSON headers. -/
theorem Execute_after_401 (p : Pipeline) (method path : String) (body : Body) (t : Target)
    (out : t.Val) (token : Token) (p1 : Pipeline) (raw : String)
    (htok : p.GetToken = (.ok token, p1))
    (h401 : p.server p.sent (p1.build token method path body) = .response 401 raw) :
    p1.build token method path body =
        ⟨method, p.baseURL p.environment ++ path,
          if body.isNil then none else some (p.serialize body),
          "Bearer " ++ token.accessToken, "application/json", "application/json"⟩ ∧
    (p.Execute method path body t out).2.forcedRefreshes = p.forcedRefreshes + 1 ∧
    (p.Execute method path body t out).2.acquisitions = p1.acquisitions + 1 ∧
    (∀ access ttl, p.tokenEndpoint p1.acquisitions = .ok (access, ttl) →
      (p.Execute method path body t out).2.sent =
          p.sent ++ [p1.build token method path body,
            { p1.build token method path body with authorization := "Bearer " ++ access }] ∧
        (p.Execute method path body t out).2.cached = some ⟨access, p.now + ttl⟩ ∧
        (∀ raw2, p.server (p.sent ++ [p1.build token method path body])
              { p1.build token method path body with authorization := "Bearer " ++ access } =
            .response 401 raw2 →
          (p.Execute method path body t out).1.1 =
            some (.APIError 401 (p.errorPayload raw2).1 (p.errorPayload raw2).2 raw2))) ∧
    (∀ e, p.tokenEndpoint p1.acquisitions = .error e →
      (p.Execute method path body t out).2.sent =
        p.sent ++ [p1.build token method path body] ∧
      (p.Execute method path body t out).2.cached = none) := by
  obtain ⟨cached, acq, hf⟩ := GetToken_frame p
  rw [htok] at hf
  simp only at hf
  subst hf
  simp only [Pipeline.build] at h401 ⊢
  unfold Pipeline.Execute
  rw [htok]
  simp only [Pipeline.send, Pipeline.build, h401, Pipeline.ForceRefresh, Pipeline.Acquire]
  refine ⟨trivial, ?_, ?_, ?_, ?_⟩
  · rcases h : p.tokenEndpoint acq with e | ⟨access, ttl⟩
    · rfl
    · rfl
  · rcases h : p.tokenEndpoint acq with e | ⟨access, ttl⟩
    · rfl
    · rfl
  · intro access ttl h
    simp only [h]
    refine ⟨?_, ?_, ?_⟩
    · simp only [List.append_assoc, List.singleton_append]
    · trivial
    · intro raw2 h2
      simp only [h2, Pipeline.conclude]
      rfl
  · intro e h
    simp only [h]
    exact ⟨trivial, trivial⟩

/-- Witness of C7, amended: a server that answers 401 to every request and a token
endpoint that always grants a token. One forced refresh, two acquisitions, two
requests (the second with the new token), and an `APIError` of status 401. -/
theorem Execute_after_401_witness :
    (rejectingPipeline grantAlways).GetToken =
        (.ok ⟨"T1", 3600⟩, (rejectingPipeline grantAlways).GetToken.2) ∧
      (rejectingPipeline grantAlways).server []
        ⟨"GET", "https://sandbox.test/users/profile", none, "Bearer T1",
          "application/json", "application/json"⟩ =
        TransportReply.response 401 "unauthorized" ∧
      ((rejectingPipeline grantAlways).Execute "GET" "/users/profile" Body.nil
        Target.User default).2.forcedRefreshes = 1 ∧
      ((rejectingPipeline grantAlways).Execute "GET" "/users/profile" Body.nil
        Target.User default).2.acquisitions = 2 ∧
      ((rejectingPipeline grantAlways).Execute "GET" "/users/profile" Body.nil
        Target.User default).2.sent =
        [⟨"GET", "https://sandbox.test/users/profile", none, "Bearer T1",
            "application/json", "application/json"⟩,
         ⟨"GET", "https://sandbox.test/users/profile", none, "Bearer T2",
            "application/json", "application/json"⟩] ∧
      ((rejectingPipeline grantAlways).Execute "GET" "/users/profile" Body.nil
        Target.User default).1.1 =
        some (GoError.APIError 401 none "unauthorized" "unauthorized") :=
  ⟨rfl, rfl,
    (Execute_after_401 (rejectingPipeline grantAlways) "GET" "/users/profile" Body.nil
      Target.User default ⟨"T1", 3600⟩ (rejectingPipeline grantAlways).GetToken.2
      "unauthorized" rfl rfl).2.1,
    (Execute_after_401 (rejectingPipeline grantAlways) "GET" "/users/profile" Body.nil
      Target.User default ⟨"T1", 3600⟩ (rejectingPipeline grantAlways).GetToken.2
      "unauthorized" rfl rfl).2.2.1,
    ((Execute_after_401 (rejectingPipeline grantAlways) "GET" "/users/profile" Body.nil
      Target.User default ⟨"T1", 3600⟩ (rejectingPipeline grantAlways).GetToken.2
      "unauthorized" rfl rfl).2.2.2.1 "T2" 3600 rfl).1,
    ((Execute_after_401 (rejectingPipeline grantAlways) "GET" "/users/profile" Body.nil
      Target.User default ⟨"T1", 3600⟩ (rejectingPipeline grantAlways).GetToken.2
      "unauthorized" rfl rfl).2.2.2.1 "T2" 3600 rfl).2.2 "unauthorized" rfl⟩

/-! ## The query strings of the listings -/

theorem upperhex_safe (k : Nat) : upperhex k ≠ '?' ∧ upperhex k ≠ '&' := by
  by_cases h : k < 16
  · interval_cases k <;> decide
  · have : upperhex k = '0' := by
      unfold upperhex
      exact List.getD_eq_default _ _ (by simpa using h)
    rw [this]; decide

theorem escapeByte_safe (b : Nat) : ∀ ch ∈ escapeByte b, ch ≠ '?' ∧ ch ≠ '&' := by
  by_cases h : b < 128
  · interval_cases b <;> decide
  · have h1 : shouldEscape b = true := by
      unfold shouldEscape
      rw [if_neg (by omega), if_neg (by omega)]
    have h2 : escapeByte b = ['%', upperhex (b / 16), upperhex (b % 16)] := by
      unfold escapeByte
      rw [if_neg (by omega), if_pos h1]
    rw [h2]
    intro ch hch
    simp only [List.mem_cons, List.mem_singleton, List.not_mem_nil, or_false] at hch
    rcases hch with rfl | rfl | rfl
    · decide
    · exact upperhex_safe _
    · exact upperhex_safe _

theorem queryPlain_append (a b : String) (ha : queryPlain a) (hb : queryPlain b) :
    queryPlain (a ++ b) := by
  intro ch hch
  rw [String.data_append, List.mem_append] at hch
  rcases hch with h | h
  · exact ha ch h
  · exact hb ch h

theorem QueryEscape_plain (s : String) : queryPlain (QueryEscape s) := by
  intro ch hch
  simp only [QueryEscape, List.mem_flatMap] at hch
  obtain ⟨b, _, hb⟩ := hch
  exact escapeByte_safe b ch hb

theorem Itoa_plain (i : Int) : queryPlain (Itoa i) := by
  have hd : ∀ ch ∈ digitChars, ch ≠ '?' ∧ ch ≠ '&' := by decide
  intro ch hch
  cases i with
  | ofNat n => exact hd ch (toDigits_mem n ch hch)
  | negSucc n =>
    simp only [Itoa, List.mem_cons] at hch
    rcases hch with rfl | hch
    · decide
    · exact hd ch (toDigits_mem _ ch hch)

theorem numParam_plain (key : String) (hkey : queryPlain key) (n : Int) :
    ∀ param ∈ Spec.numParam key n, queryPlain param := by
  intro param hp
  unfold Spec.numParam at hp
  split at hp
  · rw [List.mem_singleton.mp hp]
    exact queryPlain_append _ _ (queryPlain_append _ _ hkey (by unfold queryPlain; decide))
      (Itoa_plain n)
  · simp at hp

theorem params_plain (limit offset : Int) (search : String) (filter : Option MovementFilter) :
    ∀ param ∈ Spec.numParam "limit" limit ++ Spec.numParam "offset" offset ++
        Spec.searchParam search ++ Spec.filterParam filter, queryPlain param := by
  intro param hp
  simp only [List.mem_append] at hp
  rcases hp with ((hp | hp) | hp) | hp
  · exact numParam_plain _ (by unfold queryPlain; decide) _ _ hp
  · exact numParam_plain _ (by unfold queryPlain; decide) _ _ hp
  · unfold Spec.searchParam at hp
    split at hp
    · simp at hp
    · rw [List.mem_singleton.mp hp]
      exact queryPlain_append _ _ (by unfold queryPlain; decide) (QueryEscape_plain _)
  · unfold Spec.filterParam at hp
    split at hp
    · simp at hp
    · rw [List.mem_singleton.mp hp]
      exact queryPlain_append _ _ (by unfold queryPlain; decide) (QueryEscape_plain _)

/-- C8: the paths built by ListDepositAccounts, ListMovements and
ListAccountMovements are the resource path followed by the query string: `limit` and
`offset` are present exactly when positive, with their decimal rendering; the
parameters present follow one `?`, joined by `&`, in the order limit, offset, then
search or query; with no parameter present nothing is appended to the resource path;
and no parameter holds a `?` or `&` of its own. -/
theorem listing_paths (c : Client) (accountID : String) (limit offset : Int) (search : String)
    (filter : Option MovementFilter) :
    (∃ err, issued c (c.ListDepositAccounts limit offset search).2 =
      [(⟨"GET", "/depositaccounts/" ++ Spec.listQuery limit offset (Spec.searchParam search),
        Body.nil, Target.listDepositAccountsResponse⟩, err)]) ∧
    (∃ err, issued c (c.ListMovements limit offset filter).2 =
      [(⟨"GET", "/movements/" ++ Spec.listQuery limit offset (Spec.filterParam filter),
        Body.nil, Target.ListMovementsResponse⟩, err)]) ∧
    (∃ err, issued c (c.ListAccountMovements accountID limit offset filter).2 =
      [(⟨"GET", "/accounts/" ++ accountID ++ "/movements" ++
          Spec.listQuery limit offset (Spec.filterParam filter),
        Body.nil, Target.ListMovementsResponse⟩, err)]) ∧
    (∀ param ∈ Spec.numParam "limit" limit ++ Spec.numParam "offset" offset ++
        Spec.searchParam search ++ Spec.filterParam filter, queryPlain param) := by
  refine ⟨?_, ?_, ?_, params_plain limit offset search filter⟩
  · rw [ListDepositAccounts_eq]; exact ⟨_, issued_append c _⟩
  · rw [Client.ListMovements, listMovementsCommon_eq]; exact ⟨_, issued_append c _⟩
  · rw [Client.ListAccountMovements, listMovementsCommon_eq]; exact ⟨_, issued_append c _⟩

/-! ## The account in the path -/

theorem splitOn_of_not_mem (sep : Char) (a : List Char) (h : sep ∉ a) :
    Spec.splitOn sep a = [a] := by
  induction a with
  | nil => rfl
  | cons c cs ih =>
    have hc : c ≠ sep := fun e => h (by simp [e])
    have hcs : sep ∉ cs := fun e => h (by simp [e])
    simp [Spec.splitOn, hc, ih hcs]

theorem splitOn_append (sep : Char) (a rest : List Char) (h : sep ∉ a) :
    Spec.splitOn sep (a ++ sep :: rest) = a :: Spec.splitOn sep rest := by
  induction a with
  | nil => simp [Spec.splitOn]
  | cons c cs ih =>
    have hc : c ≠ sep := fun e => h (by simp [e])
    have hcs : sep ∉ cs := fun e => h (by simp [e])
    simp [Spec.splitOn, hc, ih hcs]

theorem takeWhile_queryString (params : List String) :
    (Spec.queryString params).data.takeWhile (fun ch => ch ≠ '?') = [] := by
  unfold Spec.queryString
  split
  · rfl
  · simp [String.data_append, List.takeWhile]

theorem beforeQuery_append (a : String) (params : List String) (h : '?' ∉ a.data) :
    (a ++ Spec.queryString params).data.takeWhile (fun ch => ch ≠ '?') = a.data := by
  rw [String.data_append, List.takeWhile_append_of_pos, takeWhile_queryString, List.append_nil]
  intro x hx
  simpa using fun e : x = '?' => h (e ▸ hx)

theorem GetCryptoAddressForSelfCharge_calls (c : Client) (accountID : String) :
    (issued c (c.GetCryptoAddressForSelfCharge accountID).2).map Prod.fst =
      [⟨"GET", "/accounts/" ++ accountID ++ "/selfcharge/crypto", Body.nil,
        Target.GetCryptoAddressResponse⟩] := by
  simp only [Client.GetCryptoAddressForSelfCharge, Client.Request]
  split <;> simp [issued]

theorem ListAccountMovements_calls (c : Client) (accountID : String) (limit offset : Int)
    (filter : Option MovementFilter) :
    (issued c (c.ListAccountMovements accountID limit offset filter).2).map Prod.fst =
      [⟨"GET", "/accounts/" ++ accountID ++ "/movements" ++
          Spec.listQuery limit offset (Spec.filterParam filter),
        Body.nil, Target.ListMovementsResponse⟩] := by
  rw [Client.ListAccountMovements, listMovementsCommon_eq]
  simp [issued]

/-- Support for C9: for every accountID that holds neither `/` nor `?`, the path of
GetCryptoAddressForSelfCharge, cut at the first `?` and split on `/`, is the segments
accounts, accountID, selfcharge, crypto after the empty segment of the leading `/`,
and the path of ListAccountMovements is accounts, accountID, movements, whatever the
limit, offset and filter. -/
theorem account_segments (c : Client) (accountID : String) (limit offset : Int)
    (filter : Option MovementFilter)
    (hslash : '/' ∉ accountID.data) (hquery : '?' ∉ accountID.data) :
    (issued c (c.GetCryptoAddressForSelfCharge accountID).2).map
        (fun r => Spec.pathSegments r.1.path) =
      [["", "accounts", accountID, "selfcharge", "crypto"]] ∧
    (issued c (c.ListAccountMovements accountID limit offset filter).2).map
        (fun r => Spec.pathSegments r.1.path) =
      [["", "accounts", accountID, "movements"]] := by
  have hmap : ∀ l : List (Call × Option GoError),
      l.map (fun r => Spec.pathSegments r.1.path) =
        (l.map Prod.fst).map (fun call => Spec.pathSegments call.path) := by
    intro l; simp
  constructor
  · rw [hmap, GetCryptoAddressForSelfCharge_calls]
    have h0 := beforeQuery_append ("/accounts/" ++ accountID ++ "/selfcharge/crypto") []
      (by simp only [String.data_append, List.mem_append, not_or]
          exact ⟨⟨by decide, hquery⟩, by decide⟩)
    have h1 : ("/accounts/" ++ accountID ++ "/selfcharge/crypto" ++ Spec.queryString []) =
        "/accounts/" ++ accountID ++ "/selfcharge/crypto" := by
      simp [Spec.queryString]
    rw [h1] at h0
    simp only [List.map_cons, List.map_nil, Spec.pathSegments]
    rw [h0]
    show [List.map String.mk (Spec.splitOn '/' (([] ++ '/' :: ("accounts".data ++ '/' ::
      (accountID.data ++ '/' :: ("selfcharge".data ++ '/' :: "crypto".data))))))] = _
    rw [splitOn_append _ _ _ (by simp), splitOn_append _ _ _ (by decide),
      splitOn_append _ _ _ hslash, splitOn_append _ _ _ (by decide),
      splitOn_of_not_mem _ _ (by decide)]
    rfl
  · rw [hmap, ListAccountMovements_calls]
    have h0 := beforeQuery_append ("/accounts/" ++ accountID ++ "/movements")
      (Spec.numParam "limit" limit ++ Spec.numParam "offset" offset ++ Spec.filterParam filter)
      (by simp only [String.data_append, List.mem_append, not_or]
          exact ⟨⟨by decide, hquery⟩, by decide⟩)
    simp only [List.map_cons, List.map_nil, Spec.pathSegments, Spec.listQuery]
    rw [h0]
    show [List.map String.mk (Spec.splitOn '/' (([] ++ '/' :: ("accounts".data ++ '/' ::
      (accountID.data ++ '/' :: "movements".data)))))] = _
    rw [splitOn_append _ _ _ (by simp), splitOn_append _ _ _ (by decide),
      splitOn_append _ _ _ hslash, splitOn_of_not_mem _ _ (by decide)]
    rfl

/-- C9 at the accountID "a/b": the path of GetCryptoAddressForSelfCharge splits into
accounts, a, b, selfcharge, crypto, not into accounts, a/b, selfcharge, crypto; the
accountID does not occupy one segment. -/
theorem account_segments_slash :
    (issued downClient (downClient.GetCryptoAddressForSelfCharge "a/b").2).map
        (fun r => Spec.pathSegments r.1.path) =
      [["", "accounts", "a", "b", "selfcharge", "crypto"]] ∧
    (issued downClient (downClient.GetCryptoAddressForSelfCharge "a/b").2).map
        (fun r => Spec.pathSegments r.1.path) ≠
      [["", "accounts", "a/b", "selfcharge", "crypto"]] := by
  decide

/-- Support for C9 at the accountID "acc42". -/
theorem account_segments_witness :
    '/' ∉ "acc42".data ∧ '?' ∉ "acc42".data ∧
      (issued downClient (downClient.GetCryptoAddressForSelfCharge "acc42").2).map
          (fun r => Spec.pathSegments r.1.path) =
        [["", "accounts", "acc42", "selfcharge", "crypto"]] :=
  ⟨by decide, by decide,
    (account_segments downClient "acc42" 10 0 none (by decide) (by decide)).1⟩

/-! ## The beneficiary in the path -/

theorem digitChar_value (k : Nat) (hk : k < 10) : (Nat.digitChar k).toNat - 48 = k := by
  interval_cases k <;> rfl

theorem toDigitsCore_value (fuel : Nat) : ∀ (n : Nat) (acc : List Char), n < fuel →
    (Nat.toDigitsCore 10 fuel n acc).foldl (fun a ch => 10 * a + (ch.toNat - 48)) 0 =
      acc.foldl (fun a ch => 10 * a + (ch.toNat - 48)) n := by
  induction fuel with
  | zero => intro n acc h; exact absurd h (Nat.not_lt_zero n)
  | succ fuel ih =>
    intro n acc h
    have hd : (Nat.digitChar (n % 10)).toNat - 48 = n % 10 :=
      digitChar_value _ (Nat.mod_lt _ (by decide))
    simp only [Nat.toDigitsCore]
    split
    · rename_i h0
      have hn : n % 10 = n := by omega
      rw [hn] at hd
      simp only [List.foldl_cons, hn, hd, Nat.mul_zero, Nat.zero_add]
    · rename_i h0
      rw [ih (n / 10) _ (by omega)]
      simp only [List.foldl_cons, hd]
      congr 1
      omega

theorem toDigits_value (n : Nat) : decimalValue (Nat.toDigits 10 n) = n :=
  toDigitsCore_value (n + 1) n [] (Nat.lt_succ_self n)

theorem toDigits_injective (n m : Nat) (h : Nat.toDigits 10 n = Nat.toDigits 10 m) : n = m := by
  rw [← toDigits_value n, ← toDigits_value m, h]

theorem Itoa_injective (a b : Int) (h : Itoa a = Itoa b) : a = b := by
  have hminus : '-' ∉ digitChars := by decide
  have hdata := congrArg String.data h
  cases a with
  | ofNat n =>
    cases b with
    | ofNat m => exact congrArg Int.ofNat (toDigits_injective n m hdata)
    | negSucc m =>
      exfalso
      have hmem : '-' ∈ Nat.toDigits 10 n := by
        rw [show Nat.toDigits 10 n = '-' :: Nat.toDigits 10 (m + 1) from hdata]
        exact List.mem_cons_self _ _
      exact hminus (toDigits_mem n _ hmem)
  | negSucc n =>
    cases b with
    | ofNat m =>
      exfalso
      have hmem : '-' ∈ Nat.toDigits 10 m := by
        rw [show Nat.toDigits 10 m = '-' :: Nat.toDigits 10 (n + 1) from hdata.symm]
        exact List.mem_cons_self _ _
      exact hminus (toDigits_mem m _ hmem)
    | negSucc m =>
      have h1 : Nat.toDigits 10 (n + 1) = Nat.toDigits 10 (m + 1) := List.tail_eq_of_cons_eq hdata
      have h2 := toDigits_injective _ _ h1
      have h3 : n = m := by omega
      rw [h3]

theorem depositaccounts_path_injective (a b : Int) :
    "/depositaccounts/" ++ Itoa a = "/depositaccounts/" ++ Itoa b ↔ a = b := by
  constructor
  · intro h
    have hd := congrArg String.data h
    rw [String.data_append, String.data_append] at hd
    exact Itoa_injective a b (String.ext (List.append_cancel_left hd))
  · intro h; rw [h]

theorem GetDepositAccount_calls (c : Client) (id : Int) :
    (issued c (c.GetDepositAccount id).2).map (fun r => r.1.path) =
      ["/depositaccounts/" ++ Itoa id] := by
  simp only [Client.GetDepositAccount, Client.Request]
  split <;> simp [issued]

theorem DeleteDepositAccount_calls (c : Client) (id : Int) (securityCode : String) :
    (issued c (c.DeleteDepositAccount id securityCode).2).map (fun r => r.1.path) =
      ["/depositaccounts/" ++ Itoa id] := by
  simp [Client.DeleteDepositAccount, Client.Request, issued]

/-- C11: GetDepositAccount and DeleteDepositAccount issue their request on the path
"/depositaccounts/" followed by the decimal rendering of the id, and the path
determines the id: for all integers a and b, zero and negatives included, the paths
built for a and for b are equal exactly when a = b, also between a delete and a get. -/
theorem beneficiary_path_injective (c1 c2 : Client) (a b : Int) (code1 code2 : String) :
    (issued c1 (c1.GetDepositAccount a).2).map (fun r => r.1.path) =
        ["/depositaccounts/" ++ Itoa a] ∧
      (issued c1 (c1.DeleteDepositAccount a code1).2).map (fun r => r.1.path) =
        ["/depositaccounts/" ++ Itoa a] ∧
      ((issued c1 (c1.GetDepositAccount a).2).map (fun r => r.1.path) =
        (issued c2 (c2.GetDepositAccount b).2).map (fun r => r.1.path) ↔ a = b) ∧
      ((issued c1 (c1.DeleteDepositAccount a code1).2).map (fun r => r.1.path) =
        (issued c2 (c2.DeleteDepositAccount b code2).2).map (fun r => r.1.path) ↔ a = b) ∧
      ((issued c1 (c1.DeleteDepositAccount a code1).2).map (fun r => r.1.path) =
        (issued c2 (c2.GetDepositAccount b).2).map (fun r => r.1.path) ↔ a = b) ∧
      Itoa 0 = "0" ∧ Itoa (-42) = "-42" ∧ Itoa 1234567890 = "1234567890" := by
  refine ⟨GetDepositAccount_calls c1 a, DeleteDepositAccount_calls c1 a code1, ?_, ?_, ?_,
    by decide, by decide, by decide⟩
  · rw [GetDepositAccount_calls, GetDepositAccount_calls, List.cons.injEq]
    simpa using depositaccounts_path_injective a b
  · rw [DeleteDepositAccount_calls, DeleteDepositAccount_calls, List.cons.injEq]
    simpa using depositaccounts_path_injective a b
  · rw [DeleteDepositAccount_calls, GetDepositAccount_calls, List.cons.injEq]
    simpa using depositaccounts_path_injective a b

/-! ## The filter in the query string -/


theorem lookup_member_ne (k k2 v : String) (c : Prop) [Decidable c] (rest : List (String × String))
    (h : (k == k2) = false) :
    List.lookup k ((if c then [] else [(k2, v)]) ++ rest) = List.lookup k rest := by
  split <;> simp [List.lookup, h]

theorem lookup_member_eq (k v : String) (c : Prop) [Decidable c] (rest : List (String × String)) :
    List.lookup k ((if c then [] else [(k, v)]) ++ rest) =
      if c then List.lookup k rest else some v := by
  split <;> simp [List.lookup]

theorem lookup_last_ne (k k2 v : String) (c : Prop) [Decidable c] (h : (k == k2) = false) :
    List.lookup k (if c then [] else [(k2, v)]) = none := by
  split <;> simp [List.lookup, h]

theorem lookup_last_eq (k v : String) (c : Prop) [Decidable c] :
    List.lookup k (if c then [] else [(k, v)]) = if c then none else some v := by
  split <;> simp [List.lookup]

theorem members_lookup (f : MovementFilter) :
      List.lookup "state" f.members =
        (if f.State.length = 0 then none else some (jsonStringArray f.State)) ∧
      List.lookup "currency" f.members =
        (if f.Currency = "" then none else some (jsonString f.Currency)) ∧
      List.lookup "amountGte" f.members =
        (if f.AmountGte = 0 then none else some (Itoa f.AmountGte)) ∧
      List.lookup "amountLte" f.members =
        (if f.AmountLte = 0 then none else some (Itoa f.AmountLte)) ∧
      List.lookup "createdAtFrom" f.members =
        (if f.CreatedAtFrom = "" then none else some (jsonString f.CreatedAtFrom)) ∧
      List.lookup "createdAtTo" f.members =
        (if f.CreatedAtTo = "" then none else some (jsonString f.CreatedAtTo)) ∧
      List.lookup "reference" f.members =
        (if f.Reference = "" then none else some (jsonString f.Reference)) ∧
      List.lookup "accountId" f.members =
        (if f.AccountID = "" then none else some (jsonString f.AccountID)) := by
  simp only [MovementFilter.members, List.append_assoc]
  refine ⟨?_, ?_, ?_, ?_, ?_, ?_, ?_, ?_⟩ <;>
    simp [lookup_member_eq, lookup_last_eq, lookup_member_ne, lookup_last_ne]

theorem hexValue_upperhex (k : Nat) (hk : k < 16) : Spec.hexValue (upperhex k) = some k := by
  interval_cases k <;> rfl

theorem escapeByte_plain (b : Nat) (hb : b < 256) (h32 : b ≠ 32) (hs : shouldEscape b = false) :
    Char.ofNat b ≠ '+' ∧ Char.ofNat b ≠ '%' ∧ (Char.ofNat b).toNat = b ∧ b < 128 := by
  interval_cases b <;> first | (exact absurd hs (by decide)) | (exact absurd rfl h32) | decide

theorem queryUnescape_byte (b : Nat) (hb : b < 256) (tail : List Char) :
    Spec.queryUnescapeFrom .plain (escapeByte b ++ tail) =
      (Spec.queryUnescapeFrom .plain tail).map (fun bytes => b :: bytes) := by
  unfold escapeByte
  by_cases h32 : b = 32
  · rw [if_pos h32, h32]
    simp [Spec.queryUnescapeFrom]
  · rw [if_neg h32]
    cases hs : shouldEscape b
    · obtain ⟨h1, h2, h3, h4⟩ := escapeByte_plain b hb h32 hs
      simp [Spec.queryUnescapeFrom, h1, h2, h3, h4]
    · have hdiv : 16 * (b / 16) + b % 16 = b := Nat.div_add_mod b 16
      simp [Spec.queryUnescapeFrom, hexValue_upperhex _ (show b / 16 < 16 by omega),
        hexValue_upperhex _ (Nat.mod_lt b (by decide : 0 < 16)), hdiv]

theorem queryUnescape_bytes (bs : List Nat) (h : ∀ b ∈ bs, b < 256) :
    Spec.queryUnescapeFrom .plain (bs.flatMap escapeByte) = some bs := by
  induction bs with
  | nil => rfl
  | cons b bs ih =>
    rw [List.flatMap_cons, queryUnescape_byte b (h b (by simp)),
      ih (fun x hx => h x (by simp [hx]))]
    rfl

theorem utf8Bytes_lt (s : String) : ∀ b ∈ utf8Bytes s, b < 256 := by
  intro b hb
  simp only [utf8Bytes, List.mem_map] at hb
  obtain ⟨u, _, rfl⟩ := hb
  exact u.toNat_lt

theorem QueryEscape_unescape (s : String) :
    Spec.queryUnescape (QueryEscape s).data = some (utf8Bytes s) :=
  queryUnescape_bytes _ (utf8Bytes_lt s)

theorem jsonUnescape_ascii (n : Nat) (hn : n < 128) : ∀ tail : List Char,
    Spec.jsonUnescapeFrom .plain (jsonEscapeChar (Char.ofNat n) ++ tail) =
      (Spec.jsonUnescapeFrom .plain tail).map (fun (r : List Char × List Char) => (Char.ofNat n :: r.1, r.2)) := by
  interval_cases n <;> intro tail <;> rfl


theorem jsonUnescape_char (c : Char) (tail : List Char) :
    Spec.jsonUnescapeFrom .plain (jsonEscapeChar c ++ tail) =
      (Spec.jsonUnescapeFrom .plain tail).map
        (fun (r : List Char × List Char) => (c :: r.1, r.2)) := by
  have hc : Char.ofNat c.toNat = c := Char.ofNat_toNat c
  by_cases h128 : c.toNat < 128
  · have h := jsonUnescape_ascii c.toNat h128 tail
    rw [hc] at h
    exact h
  · by_cases h1 : c.toNat = 8232
    · rw [← hc, h1]; rfl
    · by_cases h2 : c.toNat = 8233
      · rw [← hc, h2]; rfl
      · have hq : c ≠ '"' := fun e => h128 (by rw [e]; decide)
        have hb : c ≠ '\\' := fun e => h128 (by rw [e]; decide)
        have he : jsonEscapeChar c = [c] := by
          unfold jsonEscapeChar
          simp only []
          rw [if_neg (by omega), if_neg (by omega), if_neg (by omega), if_neg (by omega),
            if_neg (by omega), if_neg (by omega), if_neg (by omega), if_neg (by omega)]
        rw [he]
        simp only [List.singleton_append, Spec.jsonUnescapeFrom, hq, hb, if_false]
        rw [if_neg (by omega)]
        rfl

theorem jsonUnescape_chars (l tail : List Char) :
    Spec.jsonUnescapeFrom .plain (l.flatMap jsonEscapeChar ++ '"' :: tail) = some (l, tail) := by
  induction l with
  | nil => simp [Spec.jsonUnescapeFrom]
  | cons c l ih =>
    rw [List.flatMap_cons, List.append_assoc, jsonUnescape_char, ih]
    rfl

theorem jsonUnquote_jsonString (s : String) (tail : List Char) :
    Spec.jsonUnquote ((jsonString s).data ++ tail) = some (s.data, tail) := by
  have h := jsonUnescape_chars s.data tail
  simp only [jsonString, Spec.jsonUnquote]
  simpa [List.append_assoc] using h




theorem member_text (k v : String) (q : String) (hq : (jsonString k ++ ":").data = q.data) :
    jsonString k ++ ":" ++ v = q ++ v := by
  rw [String.ext hq]

theorem filter_layout (f : MovementFilter) :
    (jsonMarshal f).1 =
      "\x7b" ++ ",".intercalate (
        (if f.State.length = 0 then []
          else ["\"state\":" ++ ("[" ++ ",".intercalate (f.State.map jsonString) ++ "]")]) ++
        (if f.Currency = "" then [] else ["\"currency\":" ++ jsonString f.Currency]) ++
        (if f.AmountGte = 0 then [] else ["\"amountGte\":" ++ Itoa f.AmountGte]) ++
        (if f.AmountLte = 0 then [] else ["\"amountLte\":" ++ Itoa f.AmountLte]) ++
        (if f.CreatedAtFrom = "" then []
          else ["\"createdAtFrom\":" ++ jsonString f.CreatedAtFrom]) ++
        (if f.CreatedAtTo = "" then [] else ["\"createdAtTo\":" ++ jsonString f.CreatedAtTo]) ++
        (if f.Reference = "" then [] else ["\"reference\":" ++ jsonString f.Reference]) ++
        (if f.AccountID = "" then [] else ["\"accountId\":" ++ jsonString f.AccountID])) ++
      "\x7d" := by
  have e1 := fun v => member_text "state" v "\"state\":" (by decide)
  have e2 := fun v => member_text "currency" v "\"currency\":" (by decide)
  have e3 := fun v => member_text "amountGte" v "\"amountGte\":" (by decide)
  have e4 := fun v => member_text "amountLte" v "\"amountLte\":" (by decide)
  have e5 := fun v => member_text "createdAtFrom" v "\"createdAtFrom\":" (by decide)
  have e6 := fun v => member_text "createdAtTo" v "\"createdAtTo\":" (by decide)
  have e7 := fun v => member_text "reference" v "\"reference\":" (by decide)
  have e8 := fun v => member_text "accountId" v "\"accountId\":" (by decide)
  simp only [jsonMarshal, jsonObject, MovementFilter.members, jsonStringArray, List.map_append,
    apply_ite (List.map (fun kv : String × String => jsonString kv.1 ++ ":" ++ kv.2)),
    List.map_nil, List.map_cons, e1, e2, e3, e4, e5, e6, e7, e8]



set_option maxRecDepth 100000 in
theorem jsonString_ascii : jsonString ⟨(List.range 128).map Char.ofNat⟩ =
    "\"\\u0000\\u0001\\u0002\\u0003\\u0004\\u0005\\u0006\\u0007\\b\\t\\n\\u000b\\f\\r\\u000e\\u000f\\u0010\\u0011\\u0012\\u0013\\u0014\\u0015\\u0016\\u0017\\u0018\\u0019\\u001a\\u001b\\u001c\\u001d\\u001e\\u001f !\\\"#$%\\u0026'()*+,-./0123456789:;\\u003c=\\u003e?@ABCDEFGHIJKLMNOPQRSTUVWXYZ[\\\\]^_`abcdefghijklmnopqrstuvwxyz\x7b|\x7d~\x7f\"" := by
  decide

theorem jsonString_separators : jsonString "é\u2028\u2029" = "\"é\\u2028\\u2029\"" := by decide

set_option maxRecDepth 100000 in
theorem jsonMarshal_sampleFilter : (jsonMarshal sampleFilter).1 =
    "\x7b\"state\":[\"pending\",\"x y\"],\"currency\":\"USD\",\"amountGte\":5,\"amountLte\":-3,\"createdAtFrom\":\"2020-01-01T00:00:00Z\",\"reference\":\"r\\u0026f\\u003cg\\u003e\",\"accountId\":\"acc/1\"\x7d" := by
  decide

set_option maxRecDepth 100000 in
theorem ListMovements_sampleFilter (c : Client) : (issued c (c.ListMovements 10 0 (some sampleFilter)).2).map (fun r => r.1.path) =
    ["/movements/?limit=10&query=%7B%22state%22%3A%5B%22pending%22%2C%22x+y%22%5D%2C%22currency%22%3A%22USD%22%2C%22amountGte%22%3A5%2C%22amountLte%22%3A-3%2C%22createdAtFrom%22%3A%222020-01-01T00%3A00%3A00Z%22%2C%22reference%22%3A%22r%5Cu0026f%5Cu003cg%5Cu003e%22%2C%22accountId%22%3A%22acc%2F1%22%7D"] := by
  rw [Client.ListMovements, listMovementsCommon_eq]
  simp only [issued, List.drop_left, List.map_cons, List.map_nil]
  decide

/-- C10: listMovementsCommon adds a `query` parameter exactly when the filter is not
nil, its value being the JSON serialization of the filter, URL-escaped in the path;
the serialization holds a member for a field exactly when the field is not its zero
value (empty list, empty string, 0); a filter whose fields are all zero is still sent,
as the escaped empty object; and a bound of 0 leaves no member behind. The text of
the serialization is the object of the members present, in the order of the fields,
each a quoted name, a colon and the value; a string value is a JSON string literal
that reads back as the field (with the escapes of encoding/json, given for every
ASCII character and for the two separators escaped beyond ASCII), an integer is its
decimal rendering, which reads back as the number; and the escaped value unescapes to
the bytes of the serialization. -/
theorem filter_query (c : Client) (path : String) (limit offset : Int)
    (filter : Option MovementFilter) (f : MovementFilter) (s : String) (tail : List Char)
    (n : Nat) :
    (∃ params, listMovementsParams limit offset filter = .ok params ∧
      List.lookup "query" params = filter.map (fun g => [(jsonMarshal g).1])) ∧
    (issued c (c.listMovementsCommon path limit offset filter).2).map (fun r => r.1.path) =
      [path ++ Spec.listQuery limit offset (Spec.filterParam filter)] ∧
    (jsonMarshal f = (jsonObject f.members, none) ∧
      List.lookup "state" f.members =
        (if f.State.length = 0 then none else some (jsonStringArray f.State)) ∧
      List.lookup "currency" f.members =
        (if f.Currency = "" then none else some (jsonString f.Currency)) ∧
      List.lookup "amountGte" f.members =
        (if f.AmountGte = 0 then none else some (Itoa f.AmountGte)) ∧
      List.lookup "amountLte" f.members =
        (if f.AmountLte = 0 then none else some (Itoa f.AmountLte)) ∧
      List.lookup "createdAtFrom" f.members =
        (if f.CreatedAtFrom = "" then none else some (jsonString f.CreatedAtFrom)) ∧
      List.lookup "createdAtTo" f.members =
        (if f.CreatedAtTo = "" then none else some (jsonString f.CreatedAtTo)) ∧
      List.lookup "reference" f.members =
        (if f.Reference = "" then none else some (jsonString f.Reference)) ∧
      List.lookup "accountId" f.members =
        (if f.AccountID = "" then none else some (jsonString f.AccountID))) ∧
    ((jsonMarshal zeroFilter).1 = "\x7b\x7d" ∧
      (issued c (c.ListMovements 0 0 (some zeroFilter)).2).map (fun r => r.1.path) =
        ["/movements/?query=%7B%7D"]) ∧
    (jsonMarshal { f with AmountGte := 0, AmountLte := 0 }).1 =
      jsonObject ((if f.State.length = 0 then [] else [("state", jsonStringArray f.State)]) ++
        (if f.Currency = "" then [] else [("currency", jsonString f.Currency)]) ++
        (if f.CreatedAtFrom = "" then [] else [("createdAtFrom", jsonString f.CreatedAtFrom)]) ++
        (if f.CreatedAtTo = "" then [] else [("createdAtTo", jsonString f.CreatedAtTo)]) ++
        (if f.Reference = "" then [] else [("reference", jsonString f.Reference)]) ++
        (if f.AccountID = "" then [] else [("accountId", jsonString f.AccountID)])) ∧
    (jsonMarshal f).1 =
      "\x7b" ++ ",".intercalate (
        (if f.State.length = 0 then []
          else ["\"state\":" ++ ("[" ++ ",".intercalate (f.State.map jsonString) ++ "]")]) ++
        (if f.Currency = "" then [] else ["\"currency\":" ++ jsonString f.Currency]) ++
        (if f.AmountGte = 0 then [] else ["\"amountGte\":" ++ Itoa f.AmountGte]) ++
        (if f.AmountLte = 0 then [] else ["\"amountLte\":" ++ Itoa f.AmountLte]) ++
        (if f.CreatedAtFrom = "" then []
          else ["\"createdAtFrom\":" ++ jsonString f.CreatedAtFrom]) ++
        (if f.CreatedAtTo = "" then [] else ["\"createdAtTo\":" ++ jsonString f.CreatedAtTo]) ++
        (if f.Reference = "" then [] else ["\"reference\":" ++ jsonString f.Reference]) ++
        (if f.AccountID = "" then [] else ["\"accountId\":" ++ jsonString f.AccountID])) ++
      "\x7d" ∧
    Spec.jsonUnquote ((jsonString s).data ++ tail) = some (s.data, tail) ∧
    jsonString ⟨(List.range 128).map Char.ofNat⟩ =
      "\"\\u0000\\u0001\\u0002\\u0003\\u0004\\u0005\\u0006\\u0007\\b\\t\\n\\u000b\\f\\r\\u000e\\u000f\\u0010\\u0011\\u0012\\u0013\\u0014\\u0015\\u0016\\u0017\\u0018\\u0019\\u001a\\u001b\\u001c\\u001d\\u001e\\u001f !\\\"#$%\\u0026'()*+,-./0123456789:;\\u003c=\\u003e?@ABCDEFGHIJKLMNOPQRSTUVWXYZ[\\\\]^_`abcdefghijklmnopqrstuvwxyz\x7b|\x7d~\x7f\"" ∧
    jsonString "é\u2028\u2029" = "\"é\\u2028\\u2029\"" ∧
    (decimalValue (Itoa (Int.ofNat n)).data = n ∧
      (Itoa (Int.negSucc n)).data = '-' :: (Itoa (Int.ofNat (n + 1))).data) ∧
    Spec.queryUnescape (QueryEscape s).data = some (utf8Bytes s) ∧
    ((jsonMarshal sampleFilter).1 =
        "\x7b\"state\":[\"pending\",\"x y\"],\"currency\":\"USD\",\"amountGte\":5,\"amountLte\":-3,\"createdAtFrom\":\"2020-01-01T00:00:00Z\",\"reference\":\"r\\u0026f\\u003cg\\u003e\",\"accountId\":\"acc/1\"\x7d" ∧
      (issued c (c.ListMovements 10 0 (some sampleFilter)).2).map (fun r => r.1.path) =
        ["/movements/?limit=10&query=%7B%22state%22%3A%5B%22pending%22%2C%22x+y%22%5D%2C%22currency%22%3A%22USD%22%2C%22amountGte%22%3A5%2C%22amountLte%22%3A-3%2C%22createdAtFrom%22%3A%222020-01-01T00%3A00%3A00Z%22%2C%22reference%22%3A%22r%5Cu0026f%5Cu003cg%5Cu003e%22%2C%22accountId%22%3A%22acc%2F1%22%7D"]) := by
  refine ⟨?_, ?_, ⟨rfl, ?_⟩, ?_, ?_, filter_layout f, jsonUnquote_jsonString s tail,
    jsonString_ascii, jsonString_separators, ⟨toDigits_value n, rfl⟩, QueryEscape_unescape s,
    jsonMarshal_sampleFilter, ListMovements_sampleFilter c⟩
  · cases filter with
    | none =>
      refine ⟨_, rfl, ?_⟩
      by_cases h1 : limit > 0 <;> by_cases h2 : offset > 0 <;>
        simp [h1, h2, Values.Add, List.lookup]
    | some g =>
      refine ⟨_, rfl, ?_⟩
      by_cases h1 : limit > 0 <;> by_cases h2 : offset > 0 <;>
        simp [h1, h2, Values.Add, List.lookup, jsonMarshal]
  · rw [listMovementsCommon_eq]
    simp [issued]
  · exact members_lookup f
  · refine ⟨by decide, ?_⟩
    rw [Client.ListMovements, listMovementsCommon_eq]
    simp only [issued, List.drop_left, List.map_cons, List.map_nil]
    decide
  · simp [jsonMarshal, MovementFilter.members]

end Gotropipay
